import Mathlib

/-!
Verification of the swaggo-rust resolution engine against its specification.

The development shallowly embeds the Rust sources (`src/parser.rs`,
`src/generator.rs`, `src/models.rs`) into Lean:

* Rust `String` becomes Lean `String`; the handful of `&str` methods used by
  the code (`starts_with`, `ends_with`, `contains`, `split`, `split_whitespace`,
  `trim`, `replace`, ...) are modelled by the `Str*` helpers below, all of which
  operate on the underlying character list.
* `HashMap<String, V>` becomes an association list `SMap V` whose `insert`
  replaces an existing binding and otherwise appends; `HashSet<String>` becomes
  a duplicate-free-by-insertion list.  Iteration order of a Rust `HashMap` is
  unspecified, so no theorem below depends on the order of such a map beyond
  membership.
* `serde_json::Value` becomes the inductive `Json`; the external JSON parser
  `serde_json::from_str` is not part of this repository and is threaded through
  as an explicit functional argument `jp : String → Option Json`, so every
  theorem quantifying over `jp` holds for any parser behaviour.
* fallible functions return `Except ParserError _` mirroring the Rust
  `Result<_, ParserError>`.
-/

set_option autoImplicit false

namespace Swaggo

/-- Model of `serde_json::Value`. -/
inductive Json where
  | null
  | bool (b : Bool)
  | num (n : Int)
  | str (s : String)
  | arr (xs : List Json)
  | obj (fields : List (String × Json))

/-- `Value::is_null`. -/
def Json.isNull : Json → Bool
  | .null => true
  | _ => false

/-- `Value::as_str`. -/
def Json.asStr : Json → Option String
  | .str s => some s
  | _ => none

/-! ### String helpers (models of the `&str` methods used by the sources) -/

/-- Rust `str::starts_with(pat)` for a string pattern. -/
def strStartsWith (s p : String) : Bool := p.data.isPrefixOf s.data

/-- Rust `str::ends_with(pat)` for a string pattern. -/
def strEndsWith (s p : String) : Bool := p.data.isSuffixOf s.data

/-- Rust `str::contains(char)`. -/
def strContainsChar (s : String) (c : Char) : Bool := s.data.contains c

/-- Is `p` a contiguous sublist of `s`?  (helper for `str::contains(substr)`) -/
def listHasInfix (p : List Char) : List Char → Bool
  | [] => p.isEmpty
  | c :: rest => p.isPrefixOf (c :: rest) || listHasInfix p rest

/-- Rust `str::contains(substr)`. -/
def strContainsSub (s p : String) : Bool := listHasInfix p.data s.data

/-- Rust `str::strip_prefix`: `some` of the remainder when `p` prefixes `s`. -/
def stripPre (s p : String) : Option String :=
  if strStartsWith s p then some (String.mk (s.data.drop p.data.length)) else none

/-- Whitespace class of the regex `\s` (ASCII portion, which is all the
sources ever meet on single comment lines). -/
def isWs (c : Char) : Bool := c = ' ' || c = '\t' || c = '\n' || c = '\r'

/-- Word-character class of the regex `\w` (ASCII). -/
def isWordChar (c : Char) : Bool := c.isAlphanum || c = '_'

/-- ASCII lowercasing, model of Rust `str::to_lowercase` on the ASCII inputs
the sources use it on. -/
def lowerStr (s : String) : String := String.mk (s.data.map Char.toLower)

mutual

/-- Copying state of the whitespace-collapser: emit a single space at the first
whitespace character of a run, then skip the rest of the run. -/
def collapseGo : List Char → List Char
  | [] => []
  | c :: rest => if isWs c then ' ' :: collapseSkip rest else c :: collapseGo rest

/-- Skipping state of the whitespace-collapser. -/
def collapseSkip : List Char → List Char
  | [] => []
  | c :: rest => if isWs c then collapseSkip rest else c :: collapseGo rest

end

/-- Collapse every run of whitespace to a single space: the model of
`Regex::new(r"\s+").replace_all(s, " ")` applied after `s.replace('\t', " ")`
(parser.rs lines 1970-1971 and 2170-2171). -/
def collapseWs (s : String) : String := String.mk (collapseGo s.data)

mutual

/-- Worker of `splitWs`: outside a token. -/
def splitWsOut : List Char → List String
  | [] => []
  | c :: rest => if isWs c then splitWsOut rest else splitWsIn rest (String.mk [c])

/-- Worker of `splitWs`: inside a token (accumulated in `cur`). -/
def splitWsIn : List Char → String → List String
  | [], cur => [cur]
  | c :: rest, cur => if isWs c then cur :: splitWsOut rest else splitWsIn rest (cur.push c)

end

/-- Rust `str::split_whitespace`: the maximal non-whitespace runs, in order. -/
def splitWs (s : String) : List String := splitWsOut s.data

/-- First index at which `pat` occurs as a contiguous sublist (Rust
`str::find(substr)` on character indices). -/
def subIndex (pat : List Char) : List Char → Option Nat
  | [] => if pat.isEmpty then some 0 else none
  | c :: rest =>
    if pat.isPrefixOf (c :: rest) then some 0
    else (subIndex pat rest).map (· + 1)

/-- Rust `str::splitn(2, pat)`: the part before the first occurrence of `pat`
and, when `pat` occurs, the remainder after it. -/
def splitFirst (s pat : String) : String × Option String :=
  match subIndex pat.data s.data with
  | none => (s, none)
  | some i => (String.mk (s.data.take i), some (String.mk (s.data.drop (i + pat.data.length))))

/-- Rust `str::split(char)`: split at every occurrence, keeping empty
segments. -/
def charSplitOn (sep : Char) (s : String) : List String := go s.data ""
where
  go : List Char → String → List String
    | [], cur => [cur]
    | c :: rest, cur => if c = sep then cur :: go rest "" else go rest (cur.push c)

/-- Rust `s.split('/').last()` (the split list is never empty, so the Rust
`Option` is always `Some`); the `unwrap_or("")` used at call sites is folded
in. -/
def lastSlashSeg (s : String) : String := (charSplitOn '/' s).getLastD ""

/-- Rust `s.split('.').last().unwrap_or("")`. -/
def lastDotSeg (s : String) : String := (charSplitOn '.' s).getLastD ""

/-- Rust `Vec::join(sep)` / the `.join(" ")` calls of the parser. -/
def joinWith (sep : String) : List String → String
  | [] => ""
  | [x] => x
  | x :: rest => x ++ sep ++ joinWith sep rest

/-- Rust `str::trim` (both ends, whitespace). -/
def myTrim (s : String) : String :=
  String.mk (((s.data.dropWhile isWs).reverse.dropWhile isWs).reverse)

/-- Rust `str::trim_start`. -/
def myTrimStart (s : String) : String := String.mk (s.data.dropWhile isWs)

/-- Rust `str::trim_end`. -/
def myTrimEnd (s : String) : String := String.mk ((s.data.reverse.dropWhile isWs).reverse)

/-- Rust `str::find(char)`. -/
def strFindChar (s : String) (c : Char) : Option Nat := s.data.indexOf? c

/-- Rust `str::rfind(char)`. -/
def strRFindChar (s : String) (c : Char) : Option Nat :=
  match s.data.reverse.indexOf? c with
  | none => none
  | some i => some (s.data.length - 1 - i)

/-- Rust slice `&s[a..b]` on character boundaries. -/
def strSlice (s : String) (a b : Nat) : String := String.mk ((s.data.drop a).take (b - a))

/-! ### String maps (model of `HashMap<String, V>`) -/

/-- Association-list model of `HashMap<String, V>`: `insert` replaces the
binding of an existing key and otherwise appends. -/
abbrev SMap (α : Type) : Type := List (String × α)

namespace SMap

def empty {α : Type} : SMap α := []

def contains {α : Type} (m : SMap α) (k : String) : Bool :=
  (List.any m (fun p => p.1 == k))

def insert {α : Type} (m : SMap α) (k : String) (v : α) : SMap α :=
  if contains m k then List.map (fun p => if p.1 == k then (k, v) else p) m
  else m ++ [(k, v)]

def find? {α : Type} (m : SMap α) (k : String) : Option α := List.lookup k m

def isEmpty {α : Type} (m : SMap α) : Bool := List.isEmpty m

def keys {α : Type} (m : SMap α) : List String := List.map Prod.fst m

/-- `HashMap::iter_mut` style in-place update of every value. -/
def mapVals {α : Type} (f : α → α) (m : SMap α) : SMap α :=
  List.map (fun p => (p.1, f p.2)) m

theorem contains_insert_self {α : Type} (m : SMap α) (k : String) (v : α) :
    contains (insert m k v) k = true := by
  unfold insert
  by_cases h : contains m k = true
  · simp only [h, if_true]
    unfold contains at h ⊢
    rcases List.any_eq_true.mp h with ⟨p, hp, hpk⟩
    refine List.any_eq_true.mpr ?_
    exact ⟨(k, v), List.mem_map.mpr ⟨p, hp, by simp [hpk]⟩, by simp⟩
  · simp only [h, if_false]
    unfold contains
    refine List.any_eq_true.mpr ?_
    exact ⟨(k, v), by simp, by simp⟩

theorem contains_insert_mono {α : Type} (m : SMap α) (k k' : String) (v : α)
    (h : contains m k = true) : contains (insert m k' v) k = true := by
  unfold insert
  by_cases hc : contains m k' = true
  · simp only [hc, if_true]
    unfold contains at h ⊢
    rcases List.any_eq_true.mp h with ⟨p, hp, hpk⟩
    refine List.any_eq_true.mpr ?_
    refine ⟨if p.1 == k' then (k', v) else p, List.mem_map.mpr ⟨p, hp, rfl⟩, ?_⟩
    by_cases hk : (p.1 == k') = true
    · have h1 : p.1 = k' := by simpa using hk
      have h2 : p.1 = k := by simpa using hpk
      simp [hk, ← h1, h2]
    · simp [hk, hpk]
  · simp only [hc, if_false]
    unfold contains at h ⊢
    rcases List.any_eq_true.mp h with ⟨p, hp, hpk⟩
    exact List.any_eq_true.mpr ⟨p, by simp [hp], hpk⟩

end SMap

/-! ### Data model (models.rs) -/

/-- `models.rs` `Schema`, restricted to the fields the parser and generator
ever construct or traverse (`$ref`, `type`, `format`, `enum`, `default`,
`required`, `properties`, `items`, `allOf`, `anyOf`, `oneOf`, `not`); all
remaining fields of the Rust struct are never set to anything but their
`Default` value by the code under verification. -/
inductive Schema where
  | mk (ref_ : Option String) (type_ : Option Json) (format : Option String)
       (enumValues : Option (List Json)) (dflt : Option Json)
       (required : Option (List String))
       (properties : List (String × Schema))
       (items : Option Schema)
       (allOf : Option (List Schema))
       (anyOf : Option (List Schema))
       (oneOf : Option (List Schema))
       (nots : Option Schema)

namespace Schema

def ref_ : Schema → Option String
  | .mk r _ _ _ _ _ _ _ _ _ _ _ => r

def type_ : Schema → Option Json
  | .mk _ t _ _ _ _ _ _ _ _ _ _ => t

def format : Schema → Option String
  | .mk _ _ f _ _ _ _ _ _ _ _ _ => f

def enumValues : Schema → Option (List Json)
  | .mk _ _ _ e _ _ _ _ _ _ _ _ => e

def dflt : Schema → Option Json
  | .mk _ _ _ _ d _ _ _ _ _ _ _ => d

def required : Schema → Option (List String)
  | .mk _ _ _ _ _ req _ _ _ _ _ _ => req

def properties : Schema → List (String × Schema)
  | .mk _ _ _ _ _ _ p _ _ _ _ _ => p

def items : Schema → Option Schema
  | .mk _ _ _ _ _ _ _ i _ _ _ _ => i

/-- `Schema::default()`. -/
def dfl : Schema := .mk none none none none none none [] none none none none none

/-- A schema consisting only of a `$ref` (the ubiquitous
`Schema { ref_: Some(...), ..Default::default() }` pattern). -/
def ofRef (r : String) : Schema := .mk (some r) none none none none none [] none none none none none

/-- A schema consisting only of a scalar `type` string. -/
def ofType (t : String) : Schema :=
  .mk none (some (Json.str t)) none none none none [] none none none none none

/-- An array schema with the given item schema. -/
def ofArray (item : Schema) : Schema :=
  .mk none (some (Json.str "array")) none none none none [] (some item) none none none none

/-- Set the `type` field. -/
def withType (s : Schema) (t : Json) : Schema :=
  match s with
  | .mk r _ f e d req p i ao bo oo n => .mk r (some t) f e d req p i ao bo oo n

/-- Set the `format` field (`Format(...)` attribute). -/
def withFormat (s : Schema) (f : String) : Schema :=
  match s with
  | .mk r t _ e d req p i ao bo oo n => .mk r t (some f) e d req p i ao bo oo n

/-- Set the `enum` field (`Enums(...)` attribute). -/
def withEnums (s : Schema) (e : List Json) : Schema :=
  match s with
  | .mk r t f _ d req p i ao bo oo n => .mk r t f (some e) d req p i ao bo oo n

/-- Set the `default` field (`Default(...)` attribute). -/
def withDefault (s : Schema) (d : Json) : Schema :=
  match s with
  | .mk r t f e _ req p i ao bo oo n => .mk r t f e (some d) req p i ao bo oo n

/-- Set the `required` field. -/
def withRequired (s : Schema) (req : List String) : Schema :=
  match s with
  | .mk r t f e d _ p i ao bo oo n => .mk r t f e d (some req) p i ao bo oo n

/-- Set the `properties` field. -/
def withProps (s : Schema) (p : List (String × Schema)) : Schema :=
  match s with
  | .mk r t f e d req _ i ao bo oo n => .mk r t f e d req p i ao bo oo n

end Schema

/-- `models.rs` `MediaType` (the `examples`/`encoding` maps are never
populated by the code under verification). -/
structure MediaType where
  schema : Option Schema := none
  exampleVal : Option Json := none  -- Rust field name `example` (a Lean keyword)

/-- `MediaType::default()`. -/
def MediaType.dfl : MediaType := {}

/-- `models.rs` `RequestBody`. -/
structure RequestBody where
  description : Option String := none
  content : SMap MediaType := []
  required : Option Bool := none

/-- `models.rs` `Parameter` (fields the parser populates). -/
structure Parameter where
  name : String := ""
  in_type : String := ""
  description : Option String := none
  required : Option Bool := none
  schema : Option Schema := none
  exampleVal : Option Json := none  -- Rust field name `example` (a Lean keyword)

/-- `models.rs` `Response` (`headers`/`links` are never populated). -/
structure Response where
  code : String := ""
  description : String := ""
  content : SMap MediaType := []

/-- `models.rs` `Operation` (fields touched by parser/generator). -/
structure Operation where
  tags : List String := []
  summary : Option String := none
  description : Option String := none
  operationId : Option String := none
  parameters : List Parameter := []
  requestBody : Option RequestBody := none
  responses : SMap Response := []
  deprecated : Option Bool := none
  security : List (SMap (List String)) := []
  consumes : List String := []
  produces : List String := []

/-- `models.rs` `ParsedOperation`. -/
structure ParsedOperation where
  path : String
  method : String
  operation : Operation

/-- `models.rs` `PathItem` (operation slots only; `summary`, `description`,
`servers` and the path-level `parameters` are irrelevant to the claims). -/
structure PathItem where
  get : Option Operation := none
  post : Option Operation := none
  put : Option Operation := none
  delete : Option Operation := none
  options : Option Operation := none
  head : Option Operation := none
  patch : Option Operation := none
  trace : Option Operation := none

/-- The operations of a path item in the order `ensure_referenced_schemas_exist`
iterates them (generator.rs lines 1126-1128). -/
def PathItem.ops (p : PathItem) : List Operation :=
  [p.get, p.post, p.put, p.delete, p.options, p.head, p.patch, p.trace].filterMap id

/-- `models.rs` `Components` (schema registry only; the other component maps
are irrelevant to the claims). -/
structure Components where
  schemas : SMap Schema := []

/-- `models.rs` `OpenAPI` (paths and components only). -/
structure OpenAPI where
  paths : SMap PathItem := []
  components : Option Components := none

/-! ### Reference normalizer (generator.rs `fix_references_in_schema`,
lines 226-286) -/

/-- The `$ref`-string rewriting of `fix_references_in_schema`
(generator.rs lines 228-250), branch for branch:
already-canonical refs are kept, a missing leading `#` is added, bare names
are prefixed, multi-segment paths keep external-document extensions untouched
and otherwise are replaced by their last segment in canonical form. -/
def fixRefString (r : String) : String :=
  if strStartsWith r "#/components/schemas/" then r
  else if strStartsWith r "/components/schemas/" then "#" ++ r
  else if !(strContainsChar r '/') then "#/components/schemas/" ++ r
  else if strEndsWith r ".json" || strEndsWith r ".yaml" then r
  else "#/components/schemas/" ++ lastSlashSeg r

theorem prodSnd_sizeOf_lt_of_mem {l : List (String × Schema)} {x : String × Schema}
    (h : x ∈ l) : sizeOf x.2 < sizeOf l := by
  have h1 := List.sizeOf_lt_of_mem h
  obtain ⟨a, b⟩ := x
  simp at h1 ⊢
  omega

/-- `fix_references_in_schema` (generator.rs lines 226-286): rewrite the
`$ref` of a schema via `fixRefString` and recurse into `items`, `properties`,
`allOf`, `anyOf`, `oneOf` and `not`. -/
def fixReferencesInSchema : Schema → Schema
  | .mk r t f e d req props its ao bo oo n =>
    .mk (r.map fixRefString) t f e d req
      (props.attach.map (fun x => (x.1.1, fixReferencesInSchema x.1.2)))
      (match its with | none => none | some s => some (fixReferencesInSchema s))
      (match ao with | none => none | some l => some (l.attach.map (fun y => fixReferencesInSchema y.1)))
      (match bo with | none => none | some l => some (l.attach.map (fun y => fixReferencesInSchema y.1)))
      (match oo with | none => none | some l => some (l.attach.map (fun y => fixReferencesInSchema y.1)))
      (match n with | none => none | some s => some (fixReferencesInSchema s))
termination_by s => sizeOf s
decreasing_by
  · simp_wf
    have h1 := prodSnd_sizeOf_lt_of_mem x.2
    omega
  · simp_wf; omega
  · simp_wf
    have h1 := List.sizeOf_lt_of_mem y.2
    omega
  · simp_wf
    have h1 := List.sizeOf_lt_of_mem y.2
    omega
  · simp_wf
    have h1 := List.sizeOf_lt_of_mem y.2
    omega
  · simp_wf; omega

/-- Unfolding equation for `fixReferencesInSchema` in plain `map` form. -/
theorem fixReferencesInSchema_mk (r : Option String) (t : Option Json) (f : Option String)
    (e : Option (List Json)) (d : Option Json) (req : Option (List String))
    (props : List (String × Schema)) (its : Option Schema)
    (ao bo oo : Option (List Schema)) (n : Option Schema) :
    fixReferencesInSchema (.mk r t f e d req props its ao bo oo n) =
      .mk (r.map fixRefString) t f e d req
        (props.map (fun p => (p.1, fixReferencesInSchema p.2)))
        (its.map fixReferencesInSchema)
        (ao.map (fun l => l.map fixReferencesInSchema))
        (bo.map (fun l => l.map fixReferencesInSchema))
        (oo.map (fun l => l.map fixReferencesInSchema))
        (n.map fixReferencesInSchema) := by
  rw [fixReferencesInSchema.eq_def]
  have hp : ∀ (l : List (String × Schema)),
      l.attach.map (fun x => (x.1.1, fixReferencesInSchema x.1.2)) =
        l.map (fun p => (p.1, fixReferencesInSchema p.2)) := fun l => by
    rw [← List.attach_map_coe l (fun p => (p.1, fixReferencesInSchema p.2))]
  have hl : ∀ (l : List Schema),
      l.attach.map (fun y => fixReferencesInSchema y.1) = l.map fixReferencesInSchema :=
    fun l => by rw [← List.attach_map_coe l fixReferencesInSchema]
  simp only [hp, hl]
  congr 1 <;>
    first
      | rfl
      | (cases its <;> rfl)
      | (cases ao <;> rfl)
      | (cases bo <;> rfl)
      | (cases oo <;> rfl)
      | (cases n <;> rfl)

theorem strStartsWith_append_self (p s : String) : strStartsWith (p ++ s) p = true := by
  simp [strStartsWith, String.data_append, List.isPrefixOf_iff_prefix]

theorem strStartsWith_append_of (a r q : String) (h : strStartsWith r q = true) :
    strStartsWith (a ++ r) (a ++ q) = true := by
  simp only [strStartsWith, String.data_append, List.isPrefixOf_iff_prefix] at h ⊢
  obtain ⟨t, ht⟩ := h
  exact ⟨t, by rw [← ht, List.append_assoc]⟩

/-- The `$ref` rewriting is idempotent: each of its five branches produces a
string that the next run leaves unchanged. -/
theorem fixRefString_idem (r : String) : fixRefString (fixRefString r) = fixRefString r := by
  unfold fixRefString
  by_cases h1 : strStartsWith r "#/components/schemas/" = true
  · simp [h1]
  · by_cases h2 : strStartsWith r "/components/schemas/" = true
    · have hc : strStartsWith ("#" ++ r) "#/components/schemas/" = true := by
        have := strStartsWith_append_of "#" r "/components/schemas/" h2
        simpa using this
      simp [h1, h2, hc]
    · by_cases h3 : strContainsChar r '/' = true
      · by_cases h4 : (strEndsWith r ".json" || strEndsWith r ".yaml") = true
        · simp [h1, h2, h3, h4]
        · have hc : strStartsWith ("#/components/schemas/" ++ lastSlashSeg r)
              "#/components/schemas/" = true := strStartsWith_append_self _ _
          simp [h1, h2, h3, h4, hc]
      · have hc : strStartsWith ("#/components/schemas/" ++ r)
            "#/components/schemas/" = true := strStartsWith_append_self _ _
        simp [h1, h2, h3, hc]

/-- The schema-level normalization pass is idempotent. -/
theorem fixReferencesInSchema_idem (s : Schema) :
    fixReferencesInSchema (fixReferencesInSchema s) = fixReferencesInSchema s := by
  obtain ⟨r, t, f, e, d, req, props, its, ao, bo, oo, n⟩ := s
  rw [fixReferencesInSchema_mk, fixReferencesInSchema_mk]
  congr 1
  · cases r with
    | none => rfl
    | some v =>
      show some (fixRefString (fixRefString v)) = some (fixRefString v)
      rw [fixRefString_idem]
  · rw [List.map_map]
    refine List.map_congr_left ?_
    intro p hp
    show (p.1, fixReferencesInSchema (fixReferencesInSchema p.2)) = (p.1, fixReferencesInSchema p.2)
    rw [fixReferencesInSchema_idem p.2]
  · cases its with
    | none => rfl
    | some s0 =>
      show some (fixReferencesInSchema (fixReferencesInSchema s0)) = some (fixReferencesInSchema s0)
      rw [fixReferencesInSchema_idem s0]
  · cases ao with
    | none => rfl
    | some l =>
      show some ((l.map fixReferencesInSchema).map fixReferencesInSchema) = some (l.map fixReferencesInSchema)
      rw [List.map_map]
      congr 1
      refine List.map_congr_left ?_
      intro q hq
      show fixReferencesInSchema (fixReferencesInSchema q) = fixReferencesInSchema q
      rw [fixReferencesInSchema_idem q]
  · cases bo with
    | none => rfl
    | some l =>
      show some ((l.map fixReferencesInSchema).map fixReferencesInSchema) = some (l.map fixReferencesInSchema)
      rw [List.map_map]
      congr 1
      refine List.map_congr_left ?_
      intro q hq
      show fixReferencesInSchema (fixReferencesInSchema q) = fixReferencesInSchema q
      rw [fixReferencesInSchema_idem q]
  · cases oo with
    | none => rfl
    | some l =>
      show some ((l.map fixReferencesInSchema).map fixReferencesInSchema) = some (l.map fixReferencesInSchema)
      rw [List.map_map]
      congr 1
      refine List.map_congr_left ?_
      intro q hq
      show fixReferencesInSchema (fixReferencesInSchema q) = fixReferencesInSchema q
      rw [fixReferencesInSchema_idem q]
  · cases n with
    | none => rfl
    | some s0 =>
      show some (fixReferencesInSchema (fixReferencesInSchema s0)) = some (fixReferencesInSchema s0)
      rw [fixReferencesInSchema_idem s0]
termination_by sizeOf s
decreasing_by
  all_goals simp_wf
  · have h1 := prodSnd_sizeOf_lt_of_mem hp
    omega
  · omega
  · have h1 := List.sizeOf_lt_of_mem hq
    omega
  · have h1 := List.sizeOf_lt_of_mem hq
    omega
  · have h1 := List.sizeOf_lt_of_mem hq
    omega
  · omega

/-- Normalize the schema of one media type (the repeated
`if let Some(schema) = &mut media_type.schema { self.fix_references_in_schema(schema) }`
pattern of generator.rs lines 207-221). -/
def fixMediaType (mt : MediaType) : MediaType :=
  { mt with schema := mt.schema.map fixReferencesInSchema }

/-- Normalize every media type of a content map. -/
def fixContent (content : SMap MediaType) : SMap MediaType :=
  SMap.mapVals fixMediaType content

/-- Normalize the schema of one parameter (generator.rs lines 200-204). -/
def fixParam (p : Parameter) : Parameter :=
  { p with schema := p.schema.map fixReferencesInSchema }

/-- `fix_operation_references` (generator.rs lines 198-223): normalize the
schemas of an operation's parameters, request-body content and response
content. -/
def fixOperationReferences (op : Operation) : Operation :=
  { op with
    parameters := op.parameters.map fixParam,
    requestBody := op.requestBody.map (fun rb => { rb with content := fixContent rb.content }),
    responses := SMap.mapVals (fun resp => { resp with content := fixContent resp.content }) op.responses }

/-- `fix_schema_references` (generator.rs lines 190-195): normalize every
schema in the registry. -/
def fixSchemaReferences (c : Components) : Components :=
  { c with schemas := SMap.mapVals fixReferencesInSchema c.schemas }

theorem fixMediaType_idem (mt : MediaType) : fixMediaType (fixMediaType mt) = fixMediaType mt := by
  cases mt with
  | mk sch ex =>
    cases sch with
    | none => rfl
    | some s => simp [fixMediaType, fixReferencesInSchema_idem]

theorem fixContent_idem (content : SMap MediaType) :
    fixContent (fixContent content) = fixContent content := by
  unfold fixContent SMap.mapVals
  rw [List.map_map]
  refine List.map_congr_left ?_
  intro p hp
  simp [Function.comp, fixMediaType_idem]

theorem fixParam_idem (p : Parameter) : fixParam (fixParam p) = fixParam p := by
  cases p with
  | mk nm it de re sc ex =>
    cases sc with
    | none => rfl
    | some s => simp [fixParam, fixReferencesInSchema_idem]

/-- Normalizing an operation twice equals normalizing it once. -/
theorem fixOperationReferences_idem (op : Operation) :
    fixOperationReferences (fixOperationReferences op) = fixOperationReferences op := by
  unfold fixOperationReferences
  cases op with
  | mk tgs sm de oid params rb resps dep sec cons prods =>
    simp only [List.map_map, SMap.mapVals, Option.map_map]
    congr 1
    · refine List.map_congr_left ?_
      intro p hp
      simp [Function.comp, fixParam_idem]
    · cases rb with
      | none => rfl
      | some body =>
        simp only [Option.map, Function.comp]
        congr 2
        exact fixContent_idem body.content
    · refine List.map_congr_left ?_
      intro p hp
      simp [Function.comp, fixContent_idem]

/-- Normalizing a schema registry twice equals normalizing it once. -/
theorem fixSchemaReferences_idem (c : Components) :
    fixSchemaReferences (fixSchemaReferences c) = fixSchemaReferences c := by
  unfold fixSchemaReferences
  cases c
  simp only [SMap.mapVals, List.map_map]
  congr 1
  refine List.map_congr_left ?_
  intro p hp
  simp [Function.comp, fixReferencesInSchema_idem]

/-! ### Closure pass (generator.rs `ensure_referenced_schemas_exist` /
`collect_references`, lines 1119-1211) -/

/-- `HashSet<String>::insert`. -/
def listInsert (l : List String) (x : String) : List String :=
  if l.contains x then l else l ++ [x]

/-- `collect_references` (generator.rs lines 1177-1211): record the schema's
own `$ref` and recurse into `items`, `allOf`, `anyOf`, `oneOf`, `not` and
`properties`, in the source's order. -/
def collectReferences : Schema → List String → List String
  | .mk r _t _f _e _d _req props its ao bo oo n, refs0 =>
    let refs1 := match r with | none => refs0 | some rf => listInsert refs0 rf
    let refs2 := match its with | none => refs1 | some s => collectReferences s refs1
    let refs3 := match ao with
      | none => refs2
      | some l => l.attach.foldl (fun acc y => collectReferences y.1 acc) refs2
    let refs4 := match bo with
      | none => refs3
      | some l => l.attach.foldl (fun acc y => collectReferences y.1 acc) refs3
    let refs5 := match oo with
      | none => refs4
      | some l => l.attach.foldl (fun acc y => collectReferences y.1 acc) refs4
    let refs6 := match n with | none => refs5 | some s => collectReferences s refs5
    props.attach.foldl (fun acc x => collectReferences x.1.2 acc) refs6
termination_by s => sizeOf s
decreasing_by
  · simp_wf; omega
  · simp_wf
    have h1 := List.sizeOf_lt_of_mem y.2
    omega
  · simp_wf
    have h1 := List.sizeOf_lt_of_mem y.2
    omega
  · simp_wf
    have h1 := List.sizeOf_lt_of_mem y.2
    omega
  · simp_wf; omega
  · simp_wf
    have h1 := prodSnd_sizeOf_lt_of_mem x.2
    omega

theorem attachFoldl_eq {α : Type} (l : List Schema) (f : Schema → α → α) (init : α) :
    l.attach.foldl (fun acc y => f y.1 acc) init = l.foldl (fun acc y => f y acc) init := by
  induction l generalizing init with
  | nil => rfl
  | cons hd tl ih =>
    simp only [List.attach_cons, List.foldl_cons, List.foldl_map]
    exact ih _

theorem attachFoldl_pair_eq (l : List (String × Schema))
    (f : Schema → List String → List String) (init : List String) :
    l.attach.foldl (fun acc x => f x.1.2 acc) init = l.foldl (fun acc x => f x.2 acc) init := by
  induction l generalizing init with
  | nil => rfl
  | cons hd tl ih =>
    simp only [List.attach_cons, List.foldl_cons, List.foldl_map]
    exact ih _

/-- Unfolding equation for `collectReferences` in plain `foldl` form. -/
theorem collectReferences_mk (r : Option String) (t : Option Json) (f : Option String)
    (e : Option (List Json)) (d : Option Json) (req : Option (List String))
    (props : List (String × Schema)) (its : Option Schema)
    (ao bo oo : Option (List Schema)) (n : Option Schema) (refs0 : List String) :
    collectReferences (.mk r t f e d req props its ao bo oo n) refs0 =
      (let refs1 := match r with | none => refs0 | some rf => listInsert refs0 rf
       let refs2 := match its with | none => refs1 | some s => collectReferences s refs1
       let refs3 := match ao with
         | none => refs2
         | some l => l.foldl (fun acc y => collectReferences y acc) refs2
       let refs4 := match bo with
         | none => refs3
         | some l => l.foldl (fun acc y => collectReferences y acc) refs3
       let refs5 := match oo with
         | none => refs4
         | some l => l.foldl (fun acc y => collectReferences y acc) refs4
       let refs6 := match n with | none => refs5 | some s => collectReferences s refs5
       props.foldl (fun acc x => collectReferences x.2 acc) refs6) := by
  rw [collectReferences.eq_def]
  simp only [attachFoldl_eq, attachFoldl_pair_eq]

/-- The reference collection of one operation inside
`ensure_referenced_schemas_exist` (generator.rs lines 1130-1153): request body
first, then parameters, then responses. -/
def collectOpRefs (op : Operation) (refs : List String) : List String :=
  let refs := match op.requestBody with
    | none => refs
    | some rb => rb.content.foldl
        (fun acc p => match p.2.schema with | none => acc | some s => collectReferences s acc) refs
  let refs := op.parameters.foldl
      (fun acc p => match p.schema with | none => acc | some s => collectReferences s acc) refs
  op.responses.foldl
    (fun acc p => p.2.content.foldl
      (fun acc2 q => match q.2.schema with | none => acc2 | some s => collectReferences s acc2) acc)
    refs

/-- The reference set gathered over all paths/operations
(generator.rs lines 1121-1155). -/
def collectDocRefs (doc : OpenAPI) : List String :=
  doc.paths.foldl (fun acc p => (PathItem.ops p.2).foldl (fun a op => collectOpRefs op a) acc) []

/-- One step of the insertion loop of `ensure_referenced_schemas_exist`
(generator.rs lines 1159-1172): a canonically-prefixed reference whose target
is missing gets either the generator's known schema for that name or
`Schema::default()`. -/
def ensureRefStep (genSchemas : SMap Schema) (m : SMap Schema) (reference : String) : SMap Schema :=
  match stripPre reference "#/components/schemas/" with
  | none => m
  | some modelName =>
    if m.contains modelName then m
    else
      match genSchemas.find? modelName with
      | some sch => m.insert modelName sch
      | none => m.insert modelName Schema.dfl

/-- `ensure_referenced_schemas_exist` (generator.rs lines 1119-1174).
`genSchemas` is the generator's `self.schemas` field. -/
def ensureReferencedSchemasExist (genSchemas : SMap Schema) (doc : OpenAPI) : OpenAPI :=
  let references := collectDocRefs doc
  match doc.components with
  | none => doc
  | some comps =>
    { doc with components := some ({ comps with schemas := references.foldl (ensureRefStep genSchemas) comps.schemas }) }

/-! ### Claim-side definitions for the closure property -/

/-- All `$ref` strings of a schema, collected to bounded depth; a fuel larger
than the schema's depth collects them all.  Claim-side formalization of
"`$ref` reachable from a schema". -/
def schemaRefsFuel : Nat → Schema → List String
  | 0, _ => []
  | fuel + 1, .mk r _ _ _ _ _ props its ao bo oo n =>
    (match r with | none => [] | some rf => [rf]) ++
    (match its with | none => [] | some s => schemaRefsFuel fuel s) ++
    (match ao with | none => [] | some l => l.flatMap (schemaRefsFuel fuel)) ++
    (match bo with | none => [] | some l => l.flatMap (schemaRefsFuel fuel)) ++
    (match oo with | none => [] | some l => l.flatMap (schemaRefsFuel fuel)) ++
    (match n with | none => [] | some s => schemaRefsFuel fuel s) ++
    props.flatMap (fun p => schemaRefsFuel fuel p.2)

/-- All `$ref` strings reachable (to depth `fuel`) from the document: from the
schema registry and from every operation's parameter, request-body and
response schemas. -/
def docAllRefs (fuel : Nat) (doc : OpenAPI) : List String :=
  (match doc.components with
    | none => []
    | some c => c.schemas.flatMap (fun p => schemaRefsFuel fuel p.2)) ++
  doc.paths.flatMap (fun p => (PathItem.ops p.2).flatMap (fun op =>
    op.parameters.flatMap (fun pa => match pa.schema with | none => [] | some s => schemaRefsFuel fuel s) ++
    (match op.requestBody with
      | none => []
      | some rb => rb.content.flatMap (fun mt => match mt.2.schema with | none => [] | some s => schemaRefsFuel fuel s)) ++
    op.responses.flatMap (fun rsp => rsp.2.content.flatMap (fun mt =>
      match mt.2.schema with | none => [] | some s => schemaRefsFuel fuel s))))

/-- The target name of a reference: for canonical refs the part after
`#/components/schemas/`. -/
def refTargetName (r : String) : String :=
  match stripPre r "#/components/schemas/" with
  | some n => n
  | none => r

/-- The key set of the document's schema registry (`components.schemas`). -/
def registryKeys (doc : OpenAPI) : List String :=
  match doc.components with
  | none => []
  | some c => SMap.keys c.schemas

/-! ### Claim C5 -/

/-- C5 — confirmed.  The reference normalizer is idempotent: a second
application of `fix_references_in_schema` to any schema (and hence the second
run of the pass over a registry or over an operation) changes nothing, and a
`$ref` already in canonical `#/components/schemas/<Name>` form, as well as a
multi-segment `$ref` ending in a recognized external-document extension, is
left unchanged by a single run. -/
theorem c5_normalizer_idempotent :
    (∀ s : Schema, fixReferencesInSchema (fixReferencesInSchema s) = fixReferencesInSchema s) ∧
    (∀ c : Components, fixSchemaReferences (fixSchemaReferences c) = fixSchemaReferences c) ∧
    (∀ op : Operation, fixOperationReferences (fixOperationReferences op) = fixOperationReferences op) ∧
    (∀ r : String, strStartsWith r "#/components/schemas/" = true → fixRefString r = r) ∧
    (∀ r : String, strContainsChar r '/' = true →
      strStartsWith r "#/components/schemas/" = false →
      strStartsWith r "/components/schemas/" = false →
      (strEndsWith r ".json" || strEndsWith r ".yaml") = true → fixRefString r = r) := by
  refine ⟨fixReferencesInSchema_idem, fixSchemaReferences_idem, fixOperationReferences_idem, ?_, ?_⟩
  · intro r h
    unfold fixRefString
    simp [h]
  · intro r h1 h2 h3 h4
    unfold fixRefString
    simp [h1, h2, h3, h4]

/-- Witness for C5: the canonical-form and external-reference no-op clauses at
concrete inputs. -/
theorem c5_witness :
    fixRefString "#/components/schemas/User" = "#/components/schemas/User" ∧
    fixRefString "./defs/api.json" = "./defs/api.json" :=
  ⟨c5_normalizer_idempotent.2.2.2.1 "#/components/schemas/User" (by decide),
   c5_normalizer_idempotent.2.2.2.2 "./defs/api.json" (by decide) (by decide) (by decide) (by decide)⟩

/-! ### Claim C1 -/

theorem ensureRefStep_contains_mono (gen : SMap Schema) (m : SMap Schema) (ref name : String)
    (h : m.contains name = true) : (ensureRefStep gen m ref).contains name = true := by
  unfold ensureRefStep
  cases stripPre ref "#/components/schemas/" with
  | none => exact h
  | some modelName =>
    by_cases hc : m.contains modelName = true
    · simpa [hc] using h
    · simp only [hc, if_false, Bool.false_eq_true]
      cases gen.find? modelName with
      | none => exact SMap.contains_insert_mono _ _ _ _ h
      | some sch => exact SMap.contains_insert_mono _ _ _ _ h

theorem foldl_ensureRefStep_mono (gen : SMap Schema) (refs : List String) (m : SMap Schema)
    (name : String) (h : m.contains name = true) :
    (refs.foldl (ensureRefStep gen) m).contains name = true := by
  induction refs generalizing m with
  | nil => exact h
  | cons r0 rest ih => exact ih _ (ensureRefStep_contains_mono gen m r0 name h)

theorem foldl_ensureRefStep_covers (gen : SMap Schema) (refs : List String) (m : SMap Schema)
    (r name : String) (hr : r ∈ refs)
    (hn : stripPre r "#/components/schemas/" = some name) :
    (refs.foldl (ensureRefStep gen) m).contains name = true := by
  induction refs generalizing m with
  | nil => cases hr
  | cons r0 rest ih =>
    rcases List.mem_cons.mp hr with h0 | hmem
    · subst h0
      refine foldl_ensureRefStep_mono gen rest _ name ?_
      unfold ensureRefStep
      rw [hn]
      by_cases hc : m.contains name = true
      · simp [hc]
      · simp only [hc, if_false, Bool.false_eq_true]
        cases gen.find? name with
        | none => exact SMap.contains_insert_self _ _ _
        | some sch => exact SMap.contains_insert_self _ _ _
    · exact ih _ hmem

/-- C1 — amended claim.  For every `$ref` that `ensure_referenced_schemas_exist`
collects from the document's operations (request bodies, parameters and
responses) and that carries the canonical `#/components/schemas/` prefix, the
target name is a key of `components.schemas` after the pass — provided the
document has a components section at all.  (References occurring only inside
registry schemas are not collected, so they can stay dangling: see the
counterexample.) -/
theorem c1_operation_refs_closed (genSchemas : SMap Schema) (doc : OpenAPI) (comps : Components)
    (hc : doc.components = some comps) (r : String) (hr : r ∈ collectDocRefs doc)
    (name : String) (hn : stripPre r "#/components/schemas/" = some name) :
    ∃ comps', (ensureReferencedSchemasExist genSchemas doc).components = some comps' ∧
      comps'.schemas.contains name = true := by
  unfold ensureReferencedSchemasExist
  rw [hc]
  exact ⟨_, rfl, foldl_ensureRefStep_covers genSchemas (collectDocRefs doc) comps.schemas r name hr hn⟩

/-- A document whose registry contains a schema `A` whose body references the
absent schema `B`, while no operation references anything. -/
def c1CexDoc : OpenAPI :=
  { paths := [],
    components := some { schemas := [("A", Schema.ofRef "#/components/schemas/B")] } }

/-- C1 — counterexample to the claim as stated.  After the closure pass, the
document still reachably contains the reference `#/components/schemas/B`
(inside registry schema `A`), but `B` is not a key of `components.schemas`:
the pass only collects references from operations, so a dangling reference
survives into the final document. -/
theorem c1_counterexample :
    ¬ (∀ r ∈ docAllRefs 4 (ensureReferencedSchemasExist [] c1CexDoc),
        (registryKeys (ensureReferencedSchemasExist [] c1CexDoc)).contains (refTargetName r) = true) := by
  decide

/-- The operation used by the C1 witness: one GET endpoint whose 200 response
references schema `X`. -/
def c1WitnessDoc : OpenAPI :=
  { paths := [("/u", { get := some { responses := [("200",
      { code := "200", description := "",
        content := [("application/json", { schema := some (Schema.ofRef "#/components/schemas/X") })] })] } })],
    components := some { schemas := [] } }

/-- Witness for C1's amended claim: the reference `#/components/schemas/X`
collected from the operation gets its target `X` inserted. -/
theorem c1_witness :
    ∃ comps', (ensureReferencedSchemasExist [] c1WitnessDoc).components = some comps' ∧
      comps'.schemas.contains "X" = true := by
  refine c1_operation_refs_closed [] c1WitnessDoc { schemas := [] } rfl
    "#/components/schemas/X" ?_ "X" (by decide)
  have h : collectDocRefs c1WitnessDoc = ["#/components/schemas/X"] := by
    simp [collectDocRefs, collectOpRefs, PathItem.ops, c1WitnessDoc, collectReferences_mk,
      listInsert, Schema.ofRef]
  rw [h]
  exact List.mem_singleton.mpr rfl

/-! ### Parser data types (parser.rs lines 34-152) -/

/-- `ParserError` (parser.rs lines 34-61); the `IOError` variant carries no
model since file access is outside the embedding. -/
inductive ParserError where
  | annotationParseError (msg : String)
  | routerParseError (msg : String)
  | parameterParseError (msg : String)
  | responseParseError (msg : String)
  | securityParseError (msg : String)
  | generalApiInfoError (msg : String)
  | serverParseError (msg : String)

/-- `AnnotationType` (parser.rs lines 63-108). -/
inductive AnnotationType where
  | title | version | description | summary | termsOfService | contact | license
  | server | host | basePath | accept | produce | schemes | tag
  | securityDefinitions | securityScheme | externalDocs
  | id | tags | router | deprecatedRouter | param | requestBody | security
  | response | header | deprecated
  | unknown (s : String)
deriving DecidableEq

/-- `impl From<&str> for AnnotationType` (parser.rs lines 110-145):
case-insensitive keyword classification; `success`/`failure` alias onto
`Response`. -/
def AnnotationType.ofString (s : String) : AnnotationType :=
  let l := lowerStr s
  if l = "title" then .title
  else if l = "version" then .version
  else if l = "description" then .description
  else if l = "summary" then .summary
  else if l = "termsofservice" then .termsOfService
  else if l = "contact" then .contact
  else if l = "license" then .license
  else if l = "server" then .server
  else if l = "host" then .host
  else if l = "basepath" then .basePath
  else if l = "accept" then .accept
  else if l = "produce" then .produce
  else if l = "schemes" then .schemes
  else if l = "tag" then .tag
  else if l = "securitydefinitions" then .securityDefinitions
  else if l = "securityscheme" then .securityScheme
  else if l = "externaldocs" then .externalDocs
  else if l = "id" then .id
  else if l = "tags" then .tags
  else if l = "router" then .router
  else if l = "deprecatedrouter" then .deprecatedRouter
  else if l = "param" then .param
  else if l = "requestbody" then .requestBody
  else if l = "security" then .security
  else if l = "response" then .response
  else if l = "success" then .response
  else if l = "failure" then .response
  else if l = "header" then .header
  else if l = "deprecated" then .deprecated
  else .unknown s

/-- `Annotation` (parser.rs lines 147-152). -/
structure Annotation where
  annotationType : AnnotationType
  attr : Option String := none  -- Rust field name `attribute` (a Lean keyword)
  value : String := ""

/-- `normalize_mime_type` (parser.rs lines 1938-1955). -/
def normalizeMimeType (mimeType : String) : String :=
  let l := lowerStr mimeType
  if l = "json" then "application/json"
  else if l = "xml" then "application/xml"
  else if l = "plain" || l = "text" then "text/plain"
  else if l = "html" then "text/html"
  else if l = "form" || l = "form-data" || l = "multipart" then "multipart/form-data"
  else if l = "form-urlencoded" || l = "urlencoded" then "application/x-www-form-urlencoded"
  else if l = "octet-stream" || l = "binary" then "application/octet-stream"
  else if strContainsChar l '/' then l
  else "application/" ++ l

/-- Rust `s.replace('\t', " ")`. -/
def tabToSpace (s : String) : String :=
  String.mk (s.data.map (fun c => if c = '\t' then ' ' else c))

/-! ### `parse_parameter` (parser.rs lines 1957-2163) -/

/-- The quote-aware space splitter of `parse_parameter`
(parser.rs lines 1974-1995). -/
def splitQuoted (s : String) : List String := go s.data "" false []
where
  go : List Char → String → Bool → List String → List String
    | [], cur, _, acc => if cur = "" then acc else acc ++ [cur]
    | c :: rest, cur, inQ, acc =>
      if c = '"' then go rest (cur.push c) (!inQ) acc
      else if c = ' ' && !inQ then
        (if cur = "" then go rest "" inQ acc else go rest "" inQ (acc ++ [cur]))
      else go rest (cur.push c) inQ acc

/-- The token list `parse_parameter` builds from its input
(truncation at `{example=`, whitespace normalization, quote-aware split;
parser.rs lines 1962-1995). -/
def paramParts (paramStr0 : String) : List String :=
  let paramStr := if strContainsSub paramStr0 "\x7bexample=" then (splitFirst paramStr0 "\x7bexample=").1
    else paramStr0
  let normalizedParam := collapseWs (tabToSpace paramStr)
  splitQuoted normalizedParam

/-- The data-type → schema translation of `parse_parameter`
(parser.rs lines 2041-2105): a brace token demands `object`/`array` plus a
name, a dotted name becomes a `$ref`, `[]T` becomes an array of the literal
item type, and anything else a scalar schema with the literal type string. -/
def paramDataTypeSchema (dataType : String) : Except ParserError Schema :=
  if strStartsWith dataType "\x7b" && strEndsWith dataType "\x7d" then
    let schemaType := strSlice dataType 1 (dataType.data.length - 1)
    let parts2 := splitWs schemaType
    if parts2.length ≥ 2 then
      let typeKind := parts2.getD 0 ""
      let typeName := parts2.getD 1 ""
      if typeKind = "object" then .ok (Schema.ofRef ("#/components/schemas/" ++ typeName))
      else if typeKind = "array" then .ok (Schema.ofArray (Schema.ofRef ("#/components/schemas/" ++ typeName)))
      else .error (.parameterParseError ("Unknown schema type: " ++ typeKind))
    else .error (.parameterParseError ("Invalid schema reference format: " ++ schemaType))
  else if strContainsChar dataType '.' then
    .ok (Schema.ofRef ("#/components/schemas/" ++ dataType))
  else if strStartsWith dataType "[]" then
    .ok (Schema.ofArray (Schema.ofType (String.mk (dataType.data.drop 2))))
  else .ok (Schema.ofType dataType)

/-- One trailing attribute application (`Format(...)`, `Enums(...)`,
`Default(...)`, `Example(...)`; parser.rs lines 2110-2138). -/
def applyParamAttr (jp : String → Option Json) (p : Parameter) (attr : String) : Parameter :=
  let n := attr.data.length
  if strStartsWith attr "Format(" && strEndsWith attr ")" then
    { p with schema := p.schema.map (fun s => s.withFormat (strSlice attr 7 (n - 1))) }
  else if strStartsWith attr "Enums(" && strEndsWith attr ")" then
    let enums := strSlice attr 6 (n - 1)
    let enumValues := (charSplitOn ',' enums).map (fun s => Json.str (myTrim s))
    { p with schema := p.schema.map (fun s => s.withEnums enumValues) }
  else if strStartsWith attr "Default(" && strEndsWith attr ")" then
    { p with schema := p.schema.map (fun s => s.withDefault (Json.str (strSlice attr 8 (n - 1)))) }
  else if strStartsWith attr "Example(" && strEndsWith attr ")" then
    let ex := strSlice attr 8 (n - 1)
    match jp ex with
    | some j => { p with exampleVal := some j }
    | none => { p with exampleVal := some (Json.str ex) }
  else p

/-- `parse_parameter` (parser.rs lines 1957-2163).  `jp` models
`serde_json::from_str::<serde_json::Value>`. -/
def parseParameter (jp : String → Option Json) (paramStr0 : String) : Except ParserError Parameter :=
  let paramStr := if strContainsSub paramStr0 "\x7bexample=" then (splitFirst paramStr0 "\x7bexample=").1
    else paramStr0
  let normalizedParam := collapseWs (tabToSpace paramStr)
  let parts := splitQuoted normalizedParam
  if parts.length < 5 then
    .error (.parameterParseError
      ("Parameter needs at least 5 parts: name, type, dataType, required, description. Got: "
        ++ normalizedParam))
  else
    let name := parts.getD 0 ""
    let paramType := parts.getD 1 ""
    let dataType := parts.getD 2 ""
    let required := lowerStr (parts.getD 3 "") = "true"
    let p4 := parts.getD 4 ""
    let description :=
      if strStartsWith p4 "\"" && strEndsWith p4 "\"" then strSlice p4 1 (p4.data.length - 1)
      else
        let joined := joinWith " " (parts.drop 4)
        match strFindChar joined '"', strRFindChar joined '"' with
        | some start, some stop =>
          if start < stop then strSlice joined (start + 1) stop else joined
        | _, _ => joined
    match paramDataTypeSchema dataType with
    | .error e => .error e
    | .ok schema0 =>
      let parameter : Parameter :=
        { name := name, in_type := paramType, description := some description,
          required := some required, schema := some schema0 }
      let parameter :=
        if parts.length > 5 then
          let attrsStr := joinWith " " (parts.drop 5)
          (splitWs attrsStr).foldl (applyParamAttr jp) parameter
        else parameter
      -- Inline-example block of lines 2142-2160: it re-tests the already
      -- truncated string for "\x7bexample=", so it can never fire; kept for
      -- faithfulness.
      let parameter :=
        if strContainsSub paramStr "\x7bexample=" then
          let afterOpt := (splitFirst paramStr "\x7bexample=").2
          match afterOpt with
          | none => parameter
          | some examplePart =>
            let exampleContent :=
              if strEndsWith examplePart "\x7d" then strSlice examplePart 0 (examplePart.data.length - 1)
              else examplePart
            match jp exampleContent with
            | some v => { parameter with exampleVal := some v }
            | none => parameter
        else parameter
      .ok parameter

/-! ### `parse_response` (parser.rs lines 2165-2323) -/

/-- `HashMap::get_mut`-style update of the value at a key (no-op when the key
is absent). -/
def SMap.updateAt {α : Type} (m : SMap α) (k : String) (f : α → α) : SMap α :=
  List.map (fun p => if p.1 == k then (p.1, f p.2) else p) m

/-- Rust `trim_start_matches('\x7b').trim_end_matches('\x7d')`. -/
def trimBraces (s : String) : String :=
  String.mk (((s.data.dropWhile (· = '\x7b')).reverse.dropWhile (· = '\x7d')).reverse)

/-- The final guard of `parse_response` (parser.rs lines 2317-2320): a
response whose content map is still empty receives an `application/json`
entry with a default media type. -/
def ensureDefaultContent (r : Response) : Response :=
  if r.content.isEmpty then { r with content := r.content.insert "application/json" MediaType.dfl }
  else r

/-- The body of `parse_response` after the status-code check
(parser.rs lines 2192-2315): code extraction, model-marker scan,
description assembly, model content, quote stripping, example handling. -/
def buildResponseCore (jp : String → Option Json) (parts : List String)
    (examplePart : Option String) : Response :=
  let code0 := myTrim (parts.getD 0 "")
  let code := if code0 = "default" then "default" else code0
  let response0 : Response := { code := code, description := "", content := [] }
  let modelPart := (parts.drop 1).find? (fun part => strStartsWith part "\x7b" && strEndsWith part "\x7d")
  let (description, response1) :=
    match modelPart with
    | some model =>
      let modelIndex := parts.indexOf model
      let description :=
        if modelIndex > 1 then joinWith " " ((parts.drop 1).take (modelIndex - 1))
        else if modelIndex + 1 < parts.length then joinWith " " (parts.drop (modelIndex + 2))
        else ""
      let response1 :=
        if modelIndex + 1 < parts.length then
          let modelType := trimBraces model
          let modelName := parts.getD (modelIndex + 1) ""
          if modelType = "object" then
            { response0 with content := (response0.content.insert "application/json" ({ MediaType.dfl with schema := some (Schema.ofRef ("#/components/schemas/" ++ modelName)) })) }
          else if modelType = "array" then
            { response0 with content := (response0.content.insert "application/json" ({ MediaType.dfl with schema := some (Schema.ofArray (Schema.ofRef ("#/components/schemas/" ++ modelName))) })) }
          else response0
        else response0
      (description, response1)
    | none =>
      (if parts.length > 1 then joinWith " " (parts.drop 1) else "", response0)
  let description :=
    if strStartsWith description "\"" && strEndsWith description "\"" then
      strSlice description 1 (description.data.length - 1)
    else description
  let response2 := { response1 with description := description }
  match examplePart with
  | none => response2
  | some exampleStr =>
    let exampleContent :=
      if strEndsWith exampleStr "\x7d" then strSlice exampleStr 0 (exampleStr.data.length - 1)
      else exampleStr
    match jp exampleContent with
    | none => response2
    | some exampleValue =>
      if response2.content.contains "application/json" then
        { response2 with content := (response2.content.updateAt "application/json" (fun mt => { mt with exampleVal := some exampleValue })) }
      else
        { response2 with content := (response2.content.insert "application/json" ({ MediaType.dfl with exampleVal := some exampleValue })) }

/-- `parse_response` (parser.rs lines 2165-2323). -/
def parseResponse (jp : String → Option Json) (responseStr : String) : Except ParserError Response :=
  let normalizedResp := collapseWs (tabToSpace responseStr)
  let (responsePart, examplePart) := splitFirst normalizedResp "\x7bexample="
  let parts := splitWs responsePart
  if parts.isEmpty then
    .error (.responseParseError ("Response needs at least a status code. Got: " ++ responseStr))
  else .ok (ensureDefaultContent (buildResponseCore jp parts examplePart))

/-- The produce-media-type defaulting applied to each parsed response inside
`parse_operation_with_examples` (parser.rs lines 1367-1372): when the
response's content is empty and produce types were declared, one default
entry per declared produce type is inserted. -/
def produceDefaultStep (produces : List String) (resp : Response) : Response :=
  if resp.content.isEmpty && !produces.isEmpty then
    { resp with content := produces.foldl (fun m ct => m.insert ct MediaType.dfl) resp.content }
  else resp

theorem ensureDefaultContent_content_ne (r : Response) : (ensureDefaultContent r).content ≠ [] := by
  unfold ensureDefaultContent
  by_cases h : r.content.isEmpty = true
  · have h0 : r.content = [] := by simpa [SMap.isEmpty, List.isEmpty_iff] using h
    simp [h0, SMap.insert, SMap.contains, SMap.isEmpty]
  · simp only [h, if_false, Bool.false_eq_true]
    intro hc
    exact h (by simp [SMap.isEmpty, hc])

/-- Any successfully parsed response has non-empty content. -/
theorem parseResponse_ok_content_ne (jp : String → Option Json) (s : String) (r : Response)
    (h : parseResponse jp s = .ok r) : r.content ≠ [] := by
  unfold parseResponse at h
  by_cases hp : (splitWs (splitFirst (collapseWs (tabToSpace s)) "\x7bexample=").1).isEmpty = true
  · simp only [hp, if_true] at h
    cases h
  · simp only [hp, if_false, Bool.false_eq_true] at h
    cases h
    exact ensureDefaultContent_content_ne _

/-! ### Claim C4 -/

/-- C4 — counterexample to the claim as stated.  Parsing
`id path int true "User ID"` yields name `id`, location `path`,
required `true` and description `User ID` as claimed, but the schema's type is
the literal dataType token `int`, not `integer`. -/
theorem c4_counterexample :
    parseParameter (fun _ => none) "id path int true \"User ID\"" =
      .ok { name := "id", in_type := "path", description := some "User ID",
            required := some true, schema := some (Schema.ofType "int") } ∧
    Schema.ofType "int" ≠ Schema.ofType "integer" := by
  refine ⟨rfl, ?_⟩
  intro h
  have h2 := congrArg Schema.type_ h
  simp only [Schema.ofType, Schema.type_, Option.some.injEq, Json.str.injEq] at h2
  exact absurd h2 (by decide)

/-- C4 — amended claim.  For any JSON-parser behaviour, parsing the parameter
text `id path int true "User ID"` yields a Parameter with name `id`, location
`path`, required `true`, description `User ID`, and a schema whose `type` is
the literal string `int`: `parse_parameter` copies the dataType token
verbatim for primitive types and performs no mapping to `integer`. -/
theorem c4_parameter_scenario (jp : String → Option Json) :
    parseParameter jp "id path int true \"User ID\"" =
      .ok { name := "id", in_type := "path", description := some "User ID",
            required := some true, schema := some (Schema.ofType "int") } := rfl

/-! ### Claim C10 -/

/-- C10 — confirmed.  Every response returned successfully by `parse_response`
has non-empty content: when no type marker, no example and nothing else
supplied content, an `application/json` entry with a default media type is
inserted before returning — as the concrete run on a bare
`404 Not found` response shows. -/
theorem c10_response_content_nonempty :
    (∀ (jp : String → Option Json) (s : String) (r : Response),
      parseResponse jp s = .ok r → r.content ≠ []) ∧
    parseResponse (fun _ => none) "404 Not found" =
      .ok { code := "404", description := "Not found",
            content := [("application/json", MediaType.dfl)] } :=
  ⟨parseResponse_ok_content_ne, rfl⟩

/-- Witness for C10 at the concrete `404 Not found` response. -/
theorem c10_witness :
    ({ code := "404", description := "Not found",
       content := [("application/json", MediaType.dfl)] } : Response).content ≠ [] :=
  c10_response_content_nonempty.1 (fun _ => none) "404 Not found" _
    c10_response_content_nonempty.2

/-! ### Claim C3 -/

/-- C3 — counterexample to the claim as stated.  With declared produce types
`application/json, application/xml`, the defaulting step applied to a
content-empty response inserts one entry per declared produce type — not
"exactly one entry keyed by the first declared produce type". -/
theorem c3_counterexample :
    (produceDefaultStep ["application/json", "application/xml"]
        { code := "200", description := "OK", content := [] }).content ≠
      [("application/json", MediaType.dfl)] := by
  intro h
  have h2 := congrArg List.length h
  exact absurd h2 (by decide)

/-- C3 — amended claim.  (1) When a response's content is empty and produce
types were declared, the builder's defaulting step (parser.rs lines 1367-1372)
inserts one default entry per declared produce type, in declaration order.
(2) The step never alters a response actually produced by `parse_response`,
because every successfully parsed response already has non-empty content
(an `application/json` entry is inserted by `parse_response` itself), so the
produce-based defaulting is unreachable on parsed responses. -/
theorem c3_produce_defaulting :
    (∀ (prods : List String) (resp : Response), resp.content = [] →
      (produceDefaultStep prods resp).content =
        prods.foldl (fun m ct => SMap.insert m ct MediaType.dfl) []) ∧
    (∀ (prods : List String) (jp : String → Option Json) (s : String) (r : Response),
      parseResponse jp s = .ok r → produceDefaultStep prods r = r) := by
  constructor
  · intro prods resp h
    unfold produceDefaultStep
    cases prods with
    | nil => simp [h]
    | cons p ps => simp [h, SMap.isEmpty]
  · intro prods jp s r h
    have hne := parseResponse_ok_content_ne jp s r h
    unfold produceDefaultStep
    have hf : r.content.isEmpty = false := by
      cases hc : r.content with
      | nil => exact absurd hc hne
      | cons x xs => simp [SMap.isEmpty, hc]
    simp [hf]

/-- Witness for C3's amended claim at concrete inputs: the defaulting step
inserts the single declared produce type `application/xml`, and leaves the
parsed `404 Not found` response untouched. -/
theorem c3_witness :
    (produceDefaultStep ["application/xml"]
        { code := "200", description := "OK", content := [] }).content =
      [("application/xml", MediaType.dfl)] ∧
    produceDefaultStep ["application/xml"]
        { code := "404", description := "Not found",
          content := [("application/json", MediaType.dfl)] } =
      { code := "404", description := "Not found",
        content := [("application/json", MediaType.dfl)] } :=
  ⟨c3_produce_defaulting.1 ["application/xml"] { code := "200", description := "OK", content := [] } rfl,
   c3_produce_defaulting.2 ["application/xml"] (fun _ => none) "404 Not found" _ rfl⟩

/-! ### `parse_operation_with_examples` (parser.rs lines 1176-1551) -/

/-- The `ROUTER_REGEX` capture `/(.+?)\s+\[(\w+)]$` (parser.rs line 30),
searched in the annotation value: the match must end the string with `]`, the
method group is the non-empty word-character run after the last `[`, at least
one whitespace character must precede that `[`, and the lazily-matched path
group is everything after the first `/` (which must be non-empty). -/
def routerCaptures (s : String) : Option (String × String) :=
  let cs := s.data
  match cs.getLast? with
  | some ']' =>
    let body := cs.dropLast
    (match body.reverse.indexOf? '[' with
     | none => none
     | some ridx =>
       let bidx := body.length - 1 - ridx
       let g2 := body.drop (bidx + 1)
       if !g2.isEmpty && g2.all isWordChar then
         let beforeBr := body.take bidx
         let trimmed := (beforeBr.reverse.dropWhile isWs).reverse
         if trimmed.length < beforeBr.length then
           (match trimmed.indexOf? '/' with
            | none => none
            | some i =>
              if i + 1 < trimmed.length then
                some (String.mk (trimmed.drop (i + 1)), String.mk g2)
              else none)
         else none
       else none)
  | _ => none

/-- First struct-example entry found for one of the candidate names; a found
entry whose serialized value is null is skipped (the parser.rs 1309-1321
loop, whose `break` sits inside the non-null test). -/
def lookupExample (ex : SMap (SMap Json)) : List String → Option Json
  | [] => none
  | n :: rest =>
    match ex.find? n with
    | some examples =>
      let v := Json.obj examples
      if !v.isNull then some v else lookupExample ex rest
    | none => lookupExample ex rest

/-- Variant for the parser.rs 1478-1514 loop, whose `break` fires on any found
entry: the search stops at the first candidate name present in the map and
yields its value only when non-null.  (A serialized `HashMap` is never null,
so the two variants agree on reachable inputs.) -/
def lookupExampleFound (ex : SMap (SMap Json)) : List String → Option Json
  | [] => none
  | n :: rest =>
    match ex.find? n with
    | some examples =>
      let v := Json.obj examples
      if !v.isNull then some v else none
    | none => lookupExampleFound ex rest

/-- The mutable locals of `parse_operation_with_examples`
(parser.rs lines 1182-1185). -/
structure OpState where
  operation : Operation := {}
  path : String := ""
  method : String := ""
  requestBodySchemaRef : Option String := none

/-- The `AnnotationType::Param` arm (parser.rs lines 1244-1335): a failed
parameter parse is skipped with a warning; a `body` parameter is merged into
the request body (schema, description, example lookup) and every non-`body`
parameter is appended to `operation.parameters`. -/
def opStepParam (jp : String → Option Json) (ex : SMap (SMap Json)) (st : OpState)
    (value : String) : OpState :=
  match parseParameter jp value with
  | .error _ => st
  | .ok parameter =>
    let st :=
      if parameter.in_type = "body" then
        let st :=
          match parameter.schema with
          | some schema =>
            (match schema.ref_ with
             | some r => { st with requestBodySchemaRef := some (lastSlashSeg r) }
             | none =>
               match schema.type_ with
               | some tv =>
                 (match tv.asStr with
                  | some ts => { st with requestBodySchemaRef := some ts }
                  | none => st)
               | none => st)
          | none => { st with requestBodySchemaRef := some parameter.name }
        let st :=
          if st.operation.requestBody.isNone then
            { st with operation := { st.operation with requestBody := some { description := parameter.description, content := [], required := parameter.required } } }
          else st
        match parameter.schema with
        | some schema =>
          let schemaRef := schema.ref_
          let st := { st with operation := { st.operation with requestBody := st.operation.requestBody.map (fun rb => if rb.content.isEmpty then { rb with content := (rb.content.insert "application/json" ({ MediaType.dfl with schema := some schema })) } else { rb with content := SMap.mapVals (fun mt => { mt with schema := some schema }) rb.content }) } }
          (match schemaRef with
           | some refStr =>
             let modelName := lastSlashSeg refStr
             let possibleModelNames :=
               [modelName, if strContainsChar modelName '.' then lastDotSeg modelName else modelName]
             (match lookupExample ex possibleModelNames with
              | some v => { st with operation := { st.operation with requestBody := st.operation.requestBody.map (fun rb => { rb with content := SMap.mapVals (fun mt => { mt with exampleVal := some v }) rb.content }) } }
              | none => st)
           | none => st)
        | none => st
      else st
    if parameter.in_type ≠ "body" then
      { st with operation := { st.operation with parameters := st.operation.parameters ++ [parameter] } }
    else st

/-- One media type of the `AnnotationType::Accept` arm
(parser.rs lines 1218-1235). -/
def acceptOne (st : OpState) (mt0 : String) : OpState :=
  let normalizedType := normalizeMimeType (myTrim mt0)
  let st := { st with operation := { st.operation with consumes := st.operation.consumes ++ [normalizedType] } }
  let st :=
    if st.operation.requestBody.isNone then
      { st with operation := { st.operation with requestBody := some { description := none, content := [], required := some true } } }
    else st
  { st with operation := { st.operation with requestBody := st.operation.requestBody.map (fun rb => { rb with content := rb.content.insert normalizedType MediaType.dfl }) } }

/-- The `AnnotationType::RequestBody` arm (parser.rs lines 1337-1362). -/
def opStepRequestBody (st : OpState) (value : String) : OpState :=
  let st :=
    if st.operation.requestBody.isNone then
      { st with operation := { st.operation with requestBody := some { description := some value, content := [], required := some true } } }
    else st
  if strContainsSub value "\x7b" && strContainsSub value "\x7d" then
    match strFindChar value '\x7b', strFindChar value '\x7d' with
    | some start, some stop =>
      let modelType := strSlice value (start + 1) stop
      let parts := splitWs modelType
      if parts.length ≥ 2 && parts.getD 0 "" = "object" then
        { st with requestBodySchemaRef := some (parts.getD 1 "") }
      else if !parts.isEmpty then { st with requestBodySchemaRef := some (parts.getD 0 "") }
      else st
    | _, _ => st
  else st

/-- Response-example enrichment for one media type
(parser.rs lines 1375-1439): look the referenced model (or the array item
model) up in the struct examples and set the example when none is present. -/
def enrichResponseMediaType (ex : SMap (SMap Json)) (mt : MediaType) : MediaType :=
  match mt.schema with
  | none => mt
  | some schema =>
    match schema.ref_ with
    | some r =>
      let fullTypeName := lastSlashSeg r
      let possibleNames :=
        [fullTypeName, if strContainsChar fullTypeName '.' then lastDotSeg fullTypeName else fullTypeName]
      if mt.exampleVal.isNone then
        (match lookupExample ex possibleNames with
         | some v => { mt with exampleVal := some v }
         | none => mt)
      else mt
    | none =>
      match schema.items with
      | none => mt
      | some its =>
        match its.ref_ with
        | none => mt
        | some r =>
          let itemTypeName := lastSlashSeg r
          let possibleNames :=
            [itemTypeName, if strContainsChar itemTypeName '.' then lastDotSeg itemTypeName else itemTypeName]
          if mt.exampleVal.isNone then
            (match lookupExample ex possibleNames with
             | some v => { mt with exampleVal := some (Json.arr [v]) }
             | none => mt)
          else mt

/-- The `AnnotationType::Response` arm (parser.rs lines 1364-1448): a failed
response parse is skipped with a warning; otherwise the produce defaulting and
example enrichment run and the response is keyed by its code. -/
def opStepResponse (jp : String → Option Json) (ex : SMap (SMap Json)) (st : OpState)
    (value : String) : OpState :=
  match parseResponse jp value with
  | .error _ => st
  | .ok response0 =>
    let response1 := produceDefaultStep st.operation.produces response0
    let response2 := { response1 with content := SMap.mapVals (enrichResponseMediaType ex) response1.content }
    { st with operation := { st.operation with responses := st.operation.responses.insert response2.code response2 } }

/-- The `AnnotationType::Security` arm (parser.rs lines 1449-1458). -/
def opStepSecurity (st : OpState) (value : String) : OpState :=
  let parts := splitWs value
  if !parts.isEmpty then
    let securityName := parts.getD 0 ""
    let scopes := parts.drop 1
    { st with operation := { st.operation with security := st.operation.security ++ [[(securityName, scopes)]] } }
  else st

/-- One annotation of the `parse_operation_with_examples` loop
(parser.rs lines 1187-1464).  Only a malformed router annotation aborts the
operation with an error. -/
def opStep (jp : String → Option Json) (ex : SMap (SMap Json)) (st : OpState)
    (a : Annotation) : Except ParserError OpState :=
  match a.annotationType with
  | .id => .ok { st with operation := { st.operation with operationId := some a.value } }
  | .summary => .ok { st with operation := { st.operation with summary := some a.value } }
  | .description => .ok { st with operation := { st.operation with description := some a.value } }
  | .tags => .ok { st with operation := { st.operation with tags := st.operation.tags ++ ((charSplitOn ',' a.value).map myTrim) } }
  | .router =>
    (match routerCaptures a.value with
     | some (g1, g2) => .ok { st with path := "/" ++ g1, method := lowerStr g2 }
     | none => .error (.routerParseError ("Invalid router format: " ++ a.value)))
  | .deprecatedRouter =>
    (match routerCaptures a.value with
     | some (g1, g2) => .ok { st with path := "/" ++ g1, method := lowerStr g2, operation := { st.operation with deprecated := some true } }
     | none => .error (.routerParseError ("Invalid router format: " ++ a.value)))
  | .accept => .ok (((charSplitOn ',' a.value).map myTrim).foldl acceptOne st)
  | .produce => .ok { st with operation := { st.operation with produces := st.operation.produces ++ ((charSplitOn ',' a.value).map (fun s => normalizeMimeType (myTrim s))) } }
  | .param => .ok (opStepParam jp ex st a.value)
  | .requestBody => .ok (opStepRequestBody st a.value)
  | .response => .ok (opStepResponse jp ex st a.value)
  | .security => .ok (opStepSecurity st a.value)
  | _ => .ok st

/-- The annotation loop. -/
def opFold (jp : String → Option Json) (ex : SMap (SMap Json)) :
    OpState → List Annotation → Except ParserError OpState
  | st, [] => .ok st
  | st, a :: rest =>
    match opStep jp ex st a with
    | .error e => .error e
    | .ok st' => opFold jp ex st' rest

/-- The post-loop request-body example block (parser.rs lines 1466-1517). -/
def applyRequestBodyExamples (ex : SMap (SMap Json)) (st : OpState) : OpState :=
  match st.requestBodySchemaRef with
  | none => st
  | some modelName =>
    let possibleModelNames :=
      [modelName, if strContainsChar modelName '.' then lastDotSeg modelName else modelName]
    match lookupExampleFound ex possibleModelNames with
    | none => st
    | some v =>
      let st :=
        if st.operation.requestBody.isNone then
          { st with operation := { st.operation with requestBody := some { description := none, content := [], required := some true } } }
        else st
      { st with operation := { st.operation with requestBody := st.operation.requestBody.map (fun rb => if rb.content.isEmpty then { rb with content := (rb.content.insert "application/json" ({ MediaType.dfl with schema := some (Schema.ofRef ("#/components/schemas/" ++ modelName)), exampleVal := some v })) } else { rb with content := SMap.mapVals (fun mt => { mt with exampleVal := some v, schema := if mt.schema.isNone then some (Schema.ofRef ("#/components/schemas/" ++ modelName)) else mt.schema }) rb.content }) } }

/-- Rust `path.replace("/", "_")`. -/
def replaceSlashUnderscore (s : String) : String :=
  String.mk (s.data.map (fun c => if c = '/' then '_' else c))

/-- The operation-id synthesis (parser.rs lines 1521-1530): the seven listed
methods concatenate directly; any other method gains an extra `_` between the
method and the already-underscored path (whose leading `/` became `_`). -/
def synthOperationId (method path : String) : String :=
  if method = "get" then "get" ++ replaceSlashUnderscore path
  else if method = "post" then "post" ++ replaceSlashUnderscore path
  else if method = "put" then "put" ++ replaceSlashUnderscore path
  else if method = "delete" then "delete" ++ replaceSlashUnderscore path
  else if method = "patch" then "patch" ++ replaceSlashUnderscore path
  else if method = "head" then "head" ++ replaceSlashUnderscore path
  else if method = "options" then "options" ++ replaceSlashUnderscore path
  else method ++ "_" ++ replaceSlashUnderscore path

/-- Generate the operation id when none was given (parser.rs lines 1519-1532). -/
def applyOperationIdSynth (st : OpState) : OpState :=
  if st.operation.operationId.isNone then
    { st with operation := { st.operation with operationId := some (synthOperationId st.method st.path) } }
  else st

/-- The final produces fallback (parser.rs lines 1534-1544). -/
def applyProducesDefault (st : OpState) : OpState :=
  if st.operation.produces.isEmpty && !st.operation.responses.isEmpty then
    { st with operation := { st.operation with produces := st.operation.produces ++ ["application/json"], responses := SMap.mapVals (fun r => if r.content.isEmpty then { r with content := r.content.insert "application/json" MediaType.dfl } else r) st.operation.responses } }
  else st

/-- `parse_operation_with_examples` (parser.rs lines 1176-1551). -/
def parseOperationWithExamples (jp : String → Option Json) (annotations : List Annotation)
    (structExamples : SMap (SMap Json)) : Except ParserError ParsedOperation :=
  match opFold jp structExamples {} annotations with
  | .error e => .error e
  | .ok st =>
    let st := applyRequestBodyExamples structExamples st
    let st := applyOperationIdSynth st
    let st := applyProducesDefault st
    .ok { path := st.path, method := st.method, operation := st.operation }

theorem opFold_append (jp : String → Option Json) (ex : SMap (SMap Json)) (st : OpState)
    (xs ys : List Annotation) :
    opFold jp ex st (xs ++ ys) =
      match opFold jp ex st xs with
      | .error e => .error e
      | .ok st' => opFold jp ex st' ys := by
  induction xs generalizing st with
  | nil => simp [opFold]
  | cons a rest ih =>
    simp only [List.cons_append, opFold]
    cases opStep jp ex st a with
    | error e => rfl
    | ok st1 => exact ih st1

theorem opStepParam_opId (jp : String → Option Json) (ex : SMap (SMap Json)) (st : OpState)
    (v : String) : (opStepParam jp ex st v).operation.operationId = st.operation.operationId := by
  unfold opStepParam
  cases hp : parseParameter jp v with
  | error e => simp
  | ok parameter =>
    by_cases hb : parameter.in_type = "body"
    · simp only [hb, if_true, ite_true, ne_eq, not_true_eq_false, if_false, reduceIte]
      repeat' split
      all_goals simp
    · simp [hb]

theorem acceptOne_opId (st : OpState) (mt : String) :
    (acceptOne st mt).operation.operationId = st.operation.operationId := by
  unfold acceptOne
  by_cases h : st.operation.requestBody.isNone = true <;> simp [h]

theorem acceptFold_opId (l : List String) (st : OpState) :
    (l.foldl acceptOne st).operation.operationId = st.operation.operationId := by
  induction l generalizing st with
  | nil => rfl
  | cons x xs ih => rw [List.foldl_cons, ih, acceptOne_opId]

theorem opStepRequestBody_opId (st : OpState) (v : String) :
    (opStepRequestBody st v).operation.operationId = st.operation.operationId := by
  unfold opStepRequestBody
  by_cases h1 : st.operation.requestBody.isNone = true <;>
    simp only [h1, reduceIte, Bool.false_eq_true] <;>
    (repeat' split) <;> simp

theorem opStepResponse_opId (jp : String → Option Json) (ex : SMap (SMap Json)) (st : OpState)
    (v : String) : (opStepResponse jp ex st v).operation.operationId = st.operation.operationId := by
  unfold opStepResponse
  repeat' split
  all_goals simp

theorem opStepSecurity_opId (st : OpState) (v : String) :
    (opStepSecurity st v).operation.operationId = st.operation.operationId := by
  unfold opStepSecurity
  by_cases h : splitWs v = [] <;> simp [h]

theorem opStep_opId (jp : String → Option Json) (ex : SMap (SMap Json)) (st st' : OpState)
    (a : Annotation) (ha : a.annotationType ≠ .id) (h : opStep jp ex st a = .ok st') :
    st'.operation.operationId = st.operation.operationId := by
  unfold opStep at h
  cases hat : a.annotationType <;> rw [hat] at h
  case id => exact absurd hat ha
  case router =>
    cases hr : routerCaptures a.value with
    | none => rw [hr] at h; cases h
    | some g => rw [hr] at h; cases g; cases h; simp
  case deprecatedRouter =>
    cases hr : routerCaptures a.value with
    | none => rw [hr] at h; cases h
    | some g => rw [hr] at h; cases g; cases h; simp
  case accept => cases h; exact acceptFold_opId _ _
  case param => cases h; exact opStepParam_opId _ _ _ _
  case requestBody => cases h; exact opStepRequestBody_opId _ _
  case response => cases h; exact opStepResponse_opId _ _ _ _
  case security => cases h; exact opStepSecurity_opId _ _
  all_goals (cases h; simp)



theorem opFold_opId_none (jp : String → Option Json) (ex : SMap (SMap Json))
    (anns : List Annotation) (st st' : OpState)
    (h : ∀ a ∈ anns, a.annotationType ≠ .id)
    (hf : opFold jp ex st anns = .ok st') :
    st'.operation.operationId = st.operation.operationId := by
  induction anns generalizing st with
  | nil =>
    simp only [opFold] at hf
    cases hf
    rfl
  | cons a rest ih =>
    simp only [opFold] at hf
    cases hs : opStep jp ex st a with
    | error e => rw [hs] at hf; cases hf
    | ok st1 =>
      rw [hs] at hf
      have hf2 : opFold jp ex st1 rest = .ok st' := hf
      have h1 := opStep_opId jp ex st st1 a (h a (by simp)) hs
      have h2 := ih st1 (fun b hb => h b (List.mem_cons_of_mem _ hb)) hf2
      rw [h2, h1]

theorem applyRequestBodyExamples_opId (ex : SMap (SMap Json)) (st : OpState) :
    (applyRequestBodyExamples ex st).operation.operationId = st.operation.operationId := by
  unfold applyRequestBodyExamples
  dsimp only
  repeat' split
  all_goals simp

theorem applyRequestBodyExamples_pm (ex : SMap (SMap Json)) (st : OpState) :
    (applyRequestBodyExamples ex st).path = st.path ∧
    (applyRequestBodyExamples ex st).method = st.method := by
  unfold applyRequestBodyExamples
  dsimp only
  repeat' split
  all_goals simp

theorem applyOperationIdSynth_pm (st : OpState) :
    (applyOperationIdSynth st).path = st.path ∧ (applyOperationIdSynth st).method = st.method := by
  unfold applyOperationIdSynth
  repeat' split
  all_goals simp

theorem applyProducesDefault_pm (st : OpState) :
    (applyProducesDefault st).path = st.path ∧ (applyProducesDefault st).method = st.method := by
  unfold applyProducesDefault
  repeat' split
  all_goals simp

theorem applyProducesDefault_opId (st : OpState) :
    (applyProducesDefault st).operation.operationId = st.operation.operationId := by
  unfold applyProducesDefault
  repeat' split
  all_goals simp

theorem applyOperationIdSynth_none (st : OpState) (h : st.operation.operationId = none) :
    (applyOperationIdSynth st).operation.operationId =
      some (synthOperationId st.method st.path) := by
  unfold applyOperationIdSynth
  simp [h]

theorem c6_operation_id (jp : String → Option Json) (ex : SMap (SMap Json))
    (anns : List Annotation) (po : ParsedOperation)
    (hid : ∀ a ∈ anns, a.annotationType ≠ .id)
    (h : parseOperationWithExamples jp anns ex = .ok po) :
    po.operation.operationId = some (synthOperationId po.method po.path) := by
  unfold parseOperationWithExamples at h
  cases hf : opFold jp ex {} anns with
  | error e => rw [hf] at h; cases h
  | ok st =>
    rw [hf] at h
    simp only at h
    cases h
    have hnone : st.operation.operationId = none := by
      rw [opFold_opId_none jp ex anns {} st hid hf]
    have h1 : (applyRequestBodyExamples ex st).operation.operationId = none := by
      rw [applyRequestBodyExamples_opId, hnone]
    simp only
    rw [applyProducesDefault_opId, applyOperationIdSynth_none _ h1]
    have hpm := applyRequestBodyExamples_pm ex st
    have hpm2 := applyOperationIdSynth_pm (applyRequestBodyExamples ex st)
    have hpm3 := applyProducesDefault_pm (applyOperationIdSynth (applyRequestBodyExamples ex st))
    rw [hpm.1, hpm.2, hpm3.1, hpm3.2, hpm2.1, hpm2.2, hpm.1, hpm.2]

/-! ### Claim C6 -/

/-- C6 — counterexample to the claim as stated.  For the router text
`/users/\x7bid\x7d [trace]` with no explicit id (and `trace` is a method the
generator supports), the synthesized id is `trace__users_\x7bid\x7d` — method,
an extra underscore, then the underscored path — not the method immediately
followed by the underscored path. -/
theorem c6_counterexample :
    (parseOperationWithExamples (fun _ => none)
        [{ annotationType := .router, attr := none, value := "/users/\x7bid\x7d [trace]" }]
        []).toOption.map (fun po => po.operation.operationId) =
      some (some "trace__users_\x7bid\x7d") ∧
    "trace__users_\x7bid\x7d" ≠ "trace" ++ replaceSlashUnderscore "/users/\x7bid\x7d" :=
  ⟨rfl, by decide⟩

/-- C6 — amended claim.  For every operation with no explicit id annotation,
the synthesized id is `synthOperationId method path`: for the seven methods
get, post, put, delete, patch, head, options this is the method immediately
followed by the path with '/' replaced by '_'; for any other method an extra
'_' separates method and underscored path.  The scenario
`/users/\x7bid\x7d [get]` yields `get_users_\x7bid\x7d`. -/
theorem c6_operation_id_synthesis (jp : String → Option Json) (ex : SMap (SMap Json))
    (anns : List Annotation) (po : ParsedOperation)
    (hid : ∀ a ∈ anns, a.annotationType ≠ .id)
    (h : parseOperationWithExamples jp anns ex = .ok po) :
    po.operation.operationId = some (synthOperationId po.method po.path) :=
  c6_operation_id jp ex anns po hid h

/-- The parsed operation of the C6 scenario. -/
def c6ScenarioOp : ParsedOperation :=
  { path := "/users/\x7bid\x7d", method := "get",
    operation := { operationId := some "get_users_\x7bid\x7d" } }

/-- Witness for C6's amended claim: the scenario router text
`/users/\x7bid\x7d [get]` without an id annotation. -/
theorem c6_witness :
    c6ScenarioOp.operation.operationId =
      some (synthOperationId c6ScenarioOp.method c6ScenarioOp.path) ∧
    synthOperationId "get" "/users/\x7bid\x7d" = "get_users_\x7bid\x7d" :=
  ⟨c6_operation_id_synthesis (fun _ => none) []
      [{ annotationType := .router, attr := none, value := "/users/\x7bid\x7d [get]" }]
      c6ScenarioOp
      (by intro a ha; rw [List.mem_singleton] at ha; subst ha; decide) rfl,
   rfl⟩

theorem acceptOne_params_eq (st : OpState) (mt : String) :
    (acceptOne st mt).operation.parameters = st.operation.parameters := by
  unfold acceptOne
  by_cases h : st.operation.requestBody.isNone = true <;> simp [h]

theorem acceptFold_params_eq (l : List String) (st : OpState) :
    (l.foldl acceptOne st).operation.parameters = st.operation.parameters := by
  induction l generalizing st with
  | nil => rfl
  | cons x xs ih => rw [List.foldl_cons, ih, acceptOne_params_eq]

theorem opStepRequestBody_params_eq (st : OpState) (v : String) :
    (opStepRequestBody st v).operation.parameters = st.operation.parameters := by
  unfold opStepRequestBody
  by_cases h1 : st.operation.requestBody.isNone = true <;>
    simp only [h1, reduceIte, Bool.false_eq_true] <;>
    (repeat' split) <;> simp

theorem opStepResponse_params_eq (jp : String → Option Json) (ex : SMap (SMap Json))
    (st : OpState) (v : String) :
    (opStepResponse jp ex st v).operation.parameters = st.operation.parameters := by
  unfold opStepResponse
  repeat' split
  all_goals simp

theorem opStepSecurity_params_eq (st : OpState) (v : String) :
    (opStepSecurity st v).operation.parameters = st.operation.parameters := by
  unfold opStepSecurity
  by_cases h : splitWs v = [] <;> simp [h]

theorem opStepParam_noBody (jp : String → Option Json) (ex : SMap (SMap Json)) (st : OpState)
    (v : String) (h : ∀ p ∈ st.operation.parameters, p.in_type ≠ "body") :
    ∀ p ∈ (opStepParam jp ex st v).operation.parameters, p.in_type ≠ "body" := by
  unfold opStepParam
  cases hp : parseParameter jp v with
  | error e => exact h
  | ok parameter =>
    by_cases hb : parameter.in_type = "body"
    · simp only [hb, reduceIte, ne_eq, not_true_eq_false]
      repeat' split
      all_goals simpa using h
    · simp only [hb, reduceIte, ne_eq, not_false_eq_true]
      intro p hp2
      rcases (by simpa using hp2 : p ∈ st.operation.parameters ∨ p = parameter) with h1 | h2
      · exact h p h1
      · rw [h2]
        exact hb

theorem opStep_noBody (jp : String → Option Json) (ex : SMap (SMap Json)) (st st' : OpState)
    (a : Annotation) (h : opStep jp ex st a = .ok st')
    (hP : ∀ p ∈ st.operation.parameters, p.in_type ≠ "body") :
    ∀ p ∈ st'.operation.parameters, p.in_type ≠ "body" := by
  unfold opStep at h
  cases hat : a.annotationType <;> rw [hat] at h
  case router =>
    cases hr : routerCaptures a.value with
    | none => rw [hr] at h; cases h
    | some g => rw [hr] at h; cases g; cases h; simpa using hP
  case deprecatedRouter =>
    cases hr : routerCaptures a.value with
    | none => rw [hr] at h; cases h
    | some g => rw [hr] at h; cases g; cases h; simpa using hP
  case accept => cases h; intro p hp; rw [acceptFold_params_eq] at hp; exact hP p hp
  case param => cases h; exact opStepParam_noBody jp ex st a.value hP
  case requestBody => cases h; rw [opStepRequestBody_params_eq]; exact hP
  case response => cases h; rw [opStepResponse_params_eq]; exact hP
  case security => cases h; rw [opStepSecurity_params_eq]; exact hP
  all_goals (cases h; simpa using hP)

theorem opFold_noBody (jp : String → Option Json) (ex : SMap (SMap Json))
    (anns : List Annotation) (st st' : OpState)
    (hf : opFold jp ex st anns = .ok st')
    (hP : ∀ p ∈ st.operation.parameters, p.in_type ≠ "body") :
    ∀ p ∈ st'.operation.parameters, p.in_type ≠ "body" := by
  induction anns generalizing st with
  | nil => simp only [opFold] at hf; cases hf; exact hP
  | cons a rest ih =>
    simp only [opFold] at hf
    cases hs : opStep jp ex st a with
    | error e => rw [hs] at hf; cases hf
    | ok st1 =>
      rw [hs] at hf
      have hf2 : opFold jp ex st1 rest = .ok st' := hf
      exact ih st1 hf2 (opStep_noBody jp ex st st1 a hs hP)

theorem applyRequestBodyExamples_params_eq (ex : SMap (SMap Json)) (st : OpState) :
    (applyRequestBodyExamples ex st).operation.parameters = st.operation.parameters := by
  unfold applyRequestBodyExamples
  dsimp only
  repeat' split
  all_goals simp

theorem applyOperationIdSynth_params_eq (st : OpState) :
    (applyOperationIdSynth st).operation.parameters = st.operation.parameters := by
  unfold applyOperationIdSynth
  repeat' split
  all_goals simp

theorem applyProducesDefault_params_eq (st : OpState) :
    (applyProducesDefault st).operation.parameters = st.operation.parameters := by
  unfold applyProducesDefault
  repeat' split
  all_goals simp

theorem c7_part1 (jp : String → Option Json) (ex : SMap (SMap Json))
    (anns : List Annotation) (po : ParsedOperation)
    (h : parseOperationWithExamples jp anns ex = .ok po) :
    ∀ p ∈ po.operation.parameters, p.in_type ≠ "body" := by
  unfold parseOperationWithExamples at h
  cases hf : opFold jp ex {} anns with
  | error e => rw [hf] at h; cases h
  | ok st =>
    rw [hf] at h
    simp only at h
    cases h
    simp only
    rw [applyProducesDefault_params_eq, applyOperationIdSynth_params_eq,
      applyRequestBodyExamples_params_eq]
    exact opFold_noBody jp ex anns {} st hf (by intro p hp; cases hp)



theorem acceptOne_rb_some (st : OpState) (mt : String) :
    (acceptOne st mt).operation.requestBody.isSome = true := by
  unfold acceptOne
  by_cases h : st.operation.requestBody.isNone = true <;> simp [h, Option.isSome_map]
  cases hrb : st.operation.requestBody with
  | none => rw [hrb] at h; simp at h
  | some rb => simp

theorem acceptFold_rb_some (l : List String) (st : OpState)
    (h : st.operation.requestBody.isSome = true) :
    ((l.foldl acceptOne st).operation.requestBody).isSome = true := by
  induction l generalizing st with
  | nil => exact h
  | cons x xs ih => rw [List.foldl_cons]; exact ih _ (acceptOne_rb_some st x)

theorem opStepRequestBody_rb_some (st : OpState) (v : String)
    (h : st.operation.requestBody.isSome = true) :
    (opStepRequestBody st v).operation.requestBody.isSome = true := by
  unfold opStepRequestBody
  by_cases h1 : st.operation.requestBody.isNone = true <;>
    simp only [h1, reduceIte, Bool.false_eq_true] <;>
    (repeat' split) <;> simp_all

theorem opStepResponse_rb_eq (jp : String → Option Json) (ex : SMap (SMap Json))
    (st : OpState) (v : String) :
    (opStepResponse jp ex st v).operation.requestBody = st.operation.requestBody := by
  unfold opStepResponse
  repeat' split
  all_goals simp

theorem opStepSecurity_rb_eq (st : OpState) (v : String) :
    (opStepSecurity st v).operation.requestBody = st.operation.requestBody := by
  unfold opStepSecurity
  by_cases h : splitWs v = [] <;> simp [h]

theorem opStepParam_rb_mono (jp : String → Option Json) (ex : SMap (SMap Json)) (st : OpState)
    (v : String) (h : st.operation.requestBody.isSome = true) :
    (opStepParam jp ex st v).operation.requestBody.isSome = true := by
  unfold opStepParam
  cases hp : parseParameter jp v with
  | error e => exact h
  | ok parameter =>
    by_cases hb : parameter.in_type = "body"
    · simp only [hb, reduceIte, ne_eq, not_true_eq_false]
      repeat' split
      all_goals simp_all [Option.isSome_map]
    · simp only [hb, reduceIte, ne_eq, not_false_eq_true]
      simpa using h

theorem opStepParam_body_some (jp : String → Option Json) (ex : SMap (SMap Json)) (st : OpState)
    (v : String) (pa : Parameter) (hp : parseParameter jp v = .ok pa)
    (hb : pa.in_type = "body") :
    (opStepParam jp ex st v).operation.requestBody.isSome = true := by
  unfold opStepParam
  rw [hp]
  simp only [hb, reduceIte, ne_eq, not_true_eq_false]
  repeat' split
  all_goals (try simp_all [Option.isSome_map])
  all_goals simp_all [Option.isSome_map, Option.isSome_iff_ne_none]

theorem opStep_rb_mono (jp : String → Option Json) (ex : SMap (SMap Json)) (st st' : OpState)
    (a : Annotation) (h : opStep jp ex st a = .ok st')
    (hS : st.operation.requestBody.isSome = true) :
    st'.operation.requestBody.isSome = true := by
  unfold opStep at h
  cases hat : a.annotationType <;> rw [hat] at h
  case router =>
    cases hr : routerCaptures a.value with
    | none => rw [hr] at h; cases h
    | some g => rw [hr] at h; cases g; cases h; simpa using hS
  case deprecatedRouter =>
    cases hr : routerCaptures a.value with
    | none => rw [hr] at h; cases h
    | some g => rw [hr] at h; cases g; cases h; simpa using hS
  case accept => cases h; exact acceptFold_rb_some _ _ hS
  case param => cases h; exact opStepParam_rb_mono jp ex st a.value hS
  case requestBody => cases h; exact opStepRequestBody_rb_some st a.value hS
  case response => cases h; rw [opStepResponse_rb_eq]; exact hS
  case security => cases h; rw [opStepSecurity_rb_eq]; exact hS
  all_goals (cases h; simpa using hS)

theorem opFold_rb_mono (jp : String → Option Json) (ex : SMap (SMap Json))
    (anns : List Annotation) (st st' : OpState)
    (hf : opFold jp ex st anns = .ok st') (hS : st.operation.requestBody.isSome = true) :
    st'.operation.requestBody.isSome = true := by
  induction anns generalizing st with
  | nil => simp only [opFold] at hf; cases hf; exact hS
  | cons a rest ih =>
    simp only [opFold] at hf
    cases hs : opStep jp ex st a with
    | error e => rw [hs] at hf; cases hf
    | ok st1 =>
      rw [hs] at hf
      have hf2 : opFold jp ex st1 rest = .ok st' := hf
      exact ih st1 hf2 (opStep_rb_mono jp ex st st1 a hs hS)

theorem applyRequestBodyExamples_rb_mono (ex : SMap (SMap Json)) (st : OpState)
    (h : st.operation.requestBody.isSome = true) :
    (applyRequestBodyExamples ex st).operation.requestBody.isSome = true := by
  unfold applyRequestBodyExamples
  dsimp only
  repeat' split
  all_goals simp_all [Option.isSome_map]

theorem applyOperationIdSynth_rb_eq (st : OpState) :
    (applyOperationIdSynth st).operation.requestBody = st.operation.requestBody := by
  unfold applyOperationIdSynth
  repeat' split
  all_goals simp

theorem applyProducesDefault_rb_eq (st : OpState) :
    (applyProducesDefault st).operation.requestBody = st.operation.requestBody := by
  unfold applyProducesDefault
  repeat' split
  all_goals simp

theorem c7_part2 (jp : String → Option Json) (ex : SMap (SMap Json))
    (anns : List Annotation) (po : ParsedOperation) (a : Annotation) (pa : Parameter)
    (hmem : a ∈ anns) (hat : a.annotationType = .param)
    (hpp : parseParameter jp a.value = .ok pa) (hb : pa.in_type = "body")
    (h : parseOperationWithExamples jp anns ex = .ok po) :
    po.operation.requestBody.isSome = true := by
  obtain ⟨l1, l2, rfl⟩ := List.append_of_mem hmem
  unfold parseOperationWithExamples at h
  cases hf : opFold jp ex {} (l1 ++ a :: l2) with
  | error e => rw [hf] at h; cases h
  | ok st =>
    rw [hf] at h
    simp only at h
    cases h
    simp only
    rw [applyProducesDefault_rb_eq, applyOperationIdSynth_rb_eq]
    refine applyRequestBodyExamples_rb_mono ex _ ?_
    rw [opFold_append] at hf
    cases h1 : opFold jp ex {} l1 with
    | error e => rw [h1] at hf; cases hf
    | ok st1 =>
      rw [h1] at hf
      have hf2 : opFold jp ex st1 (a :: l2) = .ok st := hf
      simp only [opFold] at hf2
      have hstep : opStep jp ex st1 a = .ok (opStepParam jp ex st1 a.value) := by
        unfold opStep
        rw [hat]
      rw [hstep] at hf2
      have hf3 : opFold jp ex (opStepParam jp ex st1 a.value) l2 = .ok st := hf2
      exact opFold_rb_mono jp ex l2 _ st hf3
        (opStepParam_body_some jp ex st1 a.value pa hpp hb)

/-! ### Claim C7 -/

/-- The annotations and resulting operation of the C7 concrete scenario. -/
def c7Anns : List Annotation :=
  [{ annotationType := .router, attr := none, value := "/u [post]" },
   { annotationType := .param, attr := none, value := "user body User true \"User data\"" }]

/-- The parsed operation of the C7 scenario: no parameter entry, and a request
body whose description and schema come from the body parameter. -/
def c7Po : ParsedOperation :=
  { path := "/u", method := "post",
    operation := { operationId := some "post_u",
                   requestBody := some ({ description := some "User data",
                                          content := [("application/json", { schema := some (Schema.ofType "User"), exampleVal := none })],
                                          required := some true }) } }

/-- C7 — confirmed.  (1) No parameter in a parsed operation's
`Operation.parameters` has location `body`.  (2) Whenever some annotation of
the group parses to a `body` parameter, the parsed operation has a request
body.  (3) In the concrete scenario, the body parameter's description and
schema populate the single request body (and `parameters` stays empty). -/
theorem c7_body_params_merged :
    (∀ (jp : String → Option Json) (ex : SMap (SMap Json)) (anns : List Annotation)
        (po : ParsedOperation), parseOperationWithExamples jp anns ex = .ok po →
      ∀ p ∈ po.operation.parameters, p.in_type ≠ "body") ∧
    (∀ (jp : String → Option Json) (ex : SMap (SMap Json)) (anns : List Annotation)
        (po : ParsedOperation) (a : Annotation) (pa : Parameter),
      a ∈ anns → a.annotationType = .param → parseParameter jp a.value = .ok pa →
      pa.in_type = "body" → parseOperationWithExamples jp anns ex = .ok po →
      po.operation.requestBody.isSome = true) ∧
    parseOperationWithExamples (fun _ => none) c7Anns [] = .ok c7Po :=
  ⟨c7_part1, c7_part2, rfl⟩

/-- Witness for C7 at the concrete scenario: the parsed operation has no
`body` parameter in `parameters` and its request body exists. -/
theorem c7_witness :
    (∀ p ∈ c7Po.operation.parameters, p.in_type ≠ "body") ∧
    c7Po.operation.requestBody.isSome = true :=
  ⟨c7_body_params_merged.1 (fun _ => none) [] c7Anns c7Po c7_body_params_merged.2.2,
   c7_body_params_merged.2.1 (fun _ => none) [] c7Anns c7Po
     { annotationType := .param, attr := none, value := "user body User true \"User data\"" }
     { name := "user", in_type := "body", description := some "User data",
       required := some true, schema := some (Schema.ofType "User") }
     (by simp [c7Anns]) rfl rfl rfl c7_body_params_merged.2.2⟩

/-! ### `parse_operations` (parser.rs lines 877-959) -/

/-- The `\s+(.+)$` tail of `ANNOTATION_REGEX`: at least one whitespace
character, then a non-empty greedy value running to the end of the line; when
everything after the whitespace is itself whitespace, greedy backtracking
leaves a single whitespace character as the value. -/
def annotValue (rest : List Char) : Option String :=
  match rest with
  | [] => none
  | c :: _ =>
    if !isWs c then none
    else
      let v := rest.dropWhile isWs
      if !v.isEmpty then some (String.mk v)
      else if rest.length ≥ 2 then some (String.mk [rest.getLastD ' '])
      else none

/-- Attempt of `ANNOTATION_REGEX` = `//\s*@(\w+)(?:\.([\w.]+))?\s+(.+)$`
(parser.rs lines 22-24) at one position, `rest` being the characters after
`//`: optional whitespace, `@`, a keyword of word characters, an optional
`.attribute` of word/dot characters, then whitespace and the value.  When the
optional attribute group cannot be completed, the grammar requires whitespace
directly after the keyword, which the following `.` is not, so the position
fails (faithful to regex backtracking). -/
def annotAt (rest : List Char) : Option (String × Option String × String) :=
  match rest.dropWhile isWs with
  | '@' :: r1 =>
    let kw := r1.takeWhile isWordChar
    if kw.isEmpty then none
    else
      (match r1.drop kw.length with
       | '.' :: r3 =>
         let attrRun := r3.takeWhile (fun c => isWordChar c || c = '.')
         if !attrRun.isEmpty then
           (match annotValue (r3.drop attrRun.length) with
            | some v => some (String.mk kw, some (String.mk attrRun), v)
            | none => none)
         else none
       | r2 =>
         (match annotValue r2 with
          | some v => some (String.mk kw, none, v)
          | none => none))
  | _ => none

/-- Left-to-right scan of a line for a `//`-anchored annotation match. -/
def annotScan : List Char → Option (String × Option String × String)
  | [] => none
  | c :: rest =>
    if c = '/' then
      match rest with
      | '/' :: r2 =>
        (match annotAt r2 with
         | some r => some r
         | none => annotScan rest)
      | _ => annotScan rest
    else annotScan rest

/-- `ANNOTATION_REGEX.captures(line)` (parser.rs lines 22-24, 911-914). -/
def annotationCaptures (line : String) : Option (String × Option String × String) :=
  annotScan line.data

/-- Build the `Annotation` of a matching line (parser.rs lines 912-922). -/
def annotationOfLine (line : String) : Option Annotation :=
  (annotationCaptures line).map
    (fun r => { annotationType := AnnotationType.ofString r.1, attr := r.2.1, value := r.2.2 })

/-- The per-file line loop of `parse_operations` (parser.rs lines 908-942):
annotation lines accumulate; a `func ` line with pending annotations
containing a router annotation parses one operation, a failed parse being
skipped with a warning; the pending annotations are then cleared. -/
def parseOpsLines (jp : String → Option Json) (ex : SMap (SMap Json)) :
    List String → List Annotation → List ParsedOperation → List ParsedOperation
  | [], _cur, ops => ops
  | line :: rest, cur, ops =>
    match annotationOfLine line with
    | some ann => parseOpsLines jp ex rest (cur ++ [ann]) ops
    | none =>
      if strStartsWith (myTrim line) "func " && !cur.isEmpty then
        let ops' :=
          if cur.any (fun a => a.annotationType = .router || a.annotationType = .deprecatedRouter) then
            match parseOperationWithExamples jp cur ex with
            | .ok operation => ops ++ [operation]
            | .error _ => ops
          else ops
        parseOpsLines jp ex rest [] ops'
      else parseOpsLines jp ex rest cur ops

/-- The operation-collection half of `parse_operations`
(parser.rs lines 877-959).  File discovery and `extract_struct_examples_with_imports`
are outside the embedding: `files` is the list of successfully-read file
contents (a read failure merely skips the file in the source), and
`structExamples` stands for the extracted example map.  The schema-registry
half (`extract_referenced_schemas`) is modelled separately.  The function
itself can only return `Ok`: every per-operation failure is logged and
skipped. -/
def parseOperationsOps (jp : String → Option Json) (files : List (List String))
    (structExamples : SMap (SMap Json)) : Except ParserError (List ParsedOperation) :=
  .ok (files.foldl (fun ops lines => parseOpsLines jp structExamples lines [] ops) [])

theorem opStep_router_error (jp : String → Option Json) (ex : SMap (SMap Json)) (st : OpState)
    (a : Annotation)
    (hat : a.annotationType = .router ∨ a.annotationType = .deprecatedRouter)
    (hr : routerCaptures a.value = none) :
    opStep jp ex st a = .error (.routerParseError ("Invalid router format: " ++ a.value)) := by
  unfold opStep
  rcases hat with h | h <;> rw [h] <;> rw [hr]

theorem opFold_error_of_badRouter (jp : String → Option Json) (ex : SMap (SMap Json))
    (anns : List Annotation) (st : OpState)
    (h : ∃ a ∈ anns, (a.annotationType = .router ∨ a.annotationType = .deprecatedRouter) ∧
      routerCaptures a.value = none) :
    ∃ e, opFold jp ex st anns = .error e := by
  induction anns generalizing st with
  | nil => rcases h with ⟨a, ha, _⟩; cases ha
  | cons a rest ih =>
    rcases h with ⟨b, hb, hbt, hbr⟩
    rcases List.mem_cons.mp hb with hba | hmem
    · subst hba
      exact ⟨_, by simp only [opFold]; rw [opStep_router_error jp ex st b hbt hbr]⟩
    · cases hs : opStep jp ex st a with
      | error e => exact ⟨e, by simp only [opFold]; rw [hs]⟩
      | ok st1 =>
        obtain ⟨e, he⟩ := ih st1 ⟨b, hmem, hbt, hbr⟩
        exact ⟨e, by simp only [opFold]; rw [hs]; exact he⟩

theorem parseOp_error_of_badRouter (jp : String → Option Json) (ex : SMap (SMap Json))
    (anns : List Annotation)
    (h : ∃ a ∈ anns, (a.annotationType = .router ∨ a.annotationType = .deprecatedRouter) ∧
      routerCaptures a.value = none) :
    ∃ e, parseOperationWithExamples jp anns ex = .error e := by
  obtain ⟨e, he⟩ := opFold_error_of_badRouter jp ex anns {} h
  exact ⟨e, by unfold parseOperationWithExamples; rw [he]⟩

theorem parseParameter_error_of_short (jp : String → Option Json) (p : String)
    (h : (paramParts p).length < 5) : ∃ e, parseParameter jp p = .error e := by
  unfold paramParts at h
  exact ⟨_, by unfold parseParameter; rw [if_pos h]⟩

/-! ### Claim C9 -/

/-- `Result::is_ok` as a Boolean, for closed statements. -/
def exceptIsOk {ε α : Type} : Except ε α → Bool
  | .ok _ => true
  | .error _ => false

/-- The C9 corpus: one file whose first annotation group has an invalid router
text (`users [get]`, no leading `/`) and whose second group is valid. -/
def c9Corpus : List (List String) :=
  [["// @Router users [get]", "func bad() \x7b", "// @Router /users [get]", "func good() \x7b"]]

/-- The single operation parsed from the valid group of the C9 corpus. -/
def c9GoodOp : ParsedOperation :=
  { path := "/users", method := "get", operation := { operationId := some "get_users" } }

/-- C9 — confirmed.  Annotation format errors are non-fatal:
(1) `parse_operations` always returns `Ok`;
(2) an annotation group containing a router annotation whose text does not
match `/path [method]` makes that operation's parse fail with an error
(which the `parse_operations` loop logs and skips);
(3) a parameter annotation with fewer than 5 tokens makes `parse_parameter`
fail with an error (which the operation builder logs and skips);
(4) on the concrete corpus with one bad-router group and one valid group,
`parse_operations` still returns `Ok` with exactly the valid operation. -/
theorem c9_format_errors_nonfatal :
    (∀ (jp : String → Option Json) (files : List (List String)) (ex : SMap (SMap Json)),
      ∃ ops, parseOperationsOps jp files ex = .ok ops) ∧
    (∀ (jp : String → Option Json) (ex : SMap (SMap Json)) (anns : List Annotation),
      (∃ a ∈ anns, (a.annotationType = .router ∨ a.annotationType = .deprecatedRouter) ∧
        routerCaptures a.value = none) →
      ∃ e, parseOperationWithExamples jp anns ex = .error e) ∧
    (∀ (jp : String → Option Json) (p : String),
      (paramParts p).length < 5 → ∃ e, parseParameter jp p = .error e) ∧
    parseOperationsOps (fun _ => none) c9Corpus [] = .ok [c9GoodOp] :=
  ⟨fun _ _ _ => ⟨_, rfl⟩,
   parseOp_error_of_badRouter,
   parseParameter_error_of_short,
   rfl⟩

/-- Witness for C9 at concrete inputs: the bad-router group fails, the
two-token parameter fails, and a run over a corpus succeeds. -/
theorem c9_witness :
    exceptIsOk (parseOperationWithExamples (fun _ => none)
      [{ annotationType := .router, attr := none, value := "users [get]" }] []) = false ∧
    exceptIsOk (parseParameter (fun _ => none) "id path") = false ∧
    exceptIsOk (parseOperationsOps (fun _ => none) c9Corpus []) = true := by
  refine ⟨?_, ?_, ?_⟩
  · obtain ⟨e, he⟩ := c9_format_errors_nonfatal.2.1 (fun _ => none) []
      [{ annotationType := .router, attr := none, value := "users [get]" }]
      ⟨{ annotationType := .router, attr := none, value := "users [get]" },
        List.mem_singleton.mpr rfl, Or.inl rfl, rfl⟩
    rw [he]
    rfl
  · obtain ⟨e, he⟩ := c9_format_errors_nonfatal.2.2.1 (fun _ => none) "id path" (by decide)
    rw [he]
    rfl
  · obtain ⟨ops, ho⟩ := c9_format_errors_nonfatal.1 (fun _ => none) c9Corpus []
    rw [ho]
    rfl

/-! ### `extract_referenced_schemas` (parser.rs lines 2746-2929) -/

/-- The per-line classification of the struct scanner
(parser.rs lines 2752-2758): a source line either matches `struct_regex`
(`type <Name> struct \x7b`), matches `field_regex` (capturing field name and
type token), has a leading `\x7d` (closing the struct body), or is any other
line.  Import lines stand for the captures of the file-level import regexes
(lines 2777-2809).  This pre-classified form abstracts the regex engine; the
scanning, processing and frontier logic below follows the source statement by
statement. -/
inductive SrcLine where
  | structStart (name : String)
  | fieldLine (name : String) (ty : String)
  | closeBrace
  | other

/-- One scanned file: its import captures (optional alias, path) and its
classified lines. -/
structure GoSrcFile where
  imports : List (Option String × String) := []
  lines : List SrcLine := []

/-- Alias defaulting of the import regex handling (parser.rs lines 2782-2789):
an absent alias falls back to the last `/`-segment of the import path. -/
def importAlias (alias? : Option String) (path : String) : String :=
  match alias? with
  | some a => a
  | none => lastSlashSeg path

/-- `convert_go_type_to_schema` (parser.rs lines 3049-3143), on the
character list of the type token.  The primitive names match none of the `[]`
and `*` patterns, so testing the patterns first preserves the Rust match
order. -/
def convertGoTypeToSchemaL : List Char → Schema
  | '[' :: ']' :: rest =>
    let itemType := String.mk rest
    if strContainsChar itemType '.' then
      let parts := charSplitOn '.' itemType
      if parts.length = 2 then
        Schema.ofArray (Schema.ofRef ("#/components/schemas/" ++ (parts.getD 0 "" ++ "." ++ parts.getD 1 "")))
      else Schema.ofArray (Schema.ofRef ("#/components/schemas/" ++ itemType))
    else Schema.ofArray (convertGoTypeToSchemaL rest)
  | '*' :: rest => convertGoTypeToSchemaL rest
  | cs =>
    let t := String.mk cs
    if t = "string" then Schema.ofType "string"
    else if t = "int" || t = "int8" || t = "int16" || t = "int32" || t = "int64" ||
        t = "uint" || t = "uint8" || t = "uint16" || t = "uint32" || t = "uint64" then
      Schema.ofType "integer"
    else if t = "float32" || t = "float64" then Schema.ofType "number"
    else if t = "bool" then Schema.ofType "boolean"
    else if strContainsChar t '.' then
      let parts := charSplitOn '.' t
      if parts.length = 2 then
        Schema.ofRef ("#/components/schemas/" ++ (parts.getD 0 "" ++ "." ++ parts.getD 1 ""))
      else Schema.ofRef ("#/components/schemas/" ++ t)
    else Schema.ofRef ("#/components/schemas/" ++ t)

/-- `convert_go_type_to_schema` on a type token string. -/
def convertGoTypeToSchema (fieldType : String) : Schema := convertGoTypeToSchemaL fieldType.data

/-- `collect_field_dependencies` (parser.rs lines 3146-3177); the pattern
reordering mirrors `convertGoTypeToSchemaL`. -/
def collectFieldDependenciesL : List Char → List String
  | '[' :: ']' :: rest => collectFieldDependenciesL rest
  | '*' :: rest => collectFieldDependenciesL rest
  | cs =>
    let t := String.mk cs
    if t = "string" || t = "int" || t = "int8" || t = "int16" || t = "int32" || t = "int64" ||
        t = "uint" || t = "uint8" || t = "uint16" || t = "uint32" || t = "uint64" ||
        t = "float32" || t = "float64" || t = "bool" then []
    else if strContainsChar t '.' then
      let parts := charSplitOn '.' t
      if parts.length = 2 then [parts.getD 1 "", t]
      else []
    else [t]

/-- `collect_field_dependencies` on a type token string. -/
def collectFieldDependencies (fieldType : String) : List String :=
  collectFieldDependenciesL fieldType.data

/-- `add_common_schemas` (parser.rs lines 2932-3046): the four built-in
response envelope schemas. -/
def addCommonSchemas (schemas : SMap Schema) : SMap Schema :=
  let scmProps : List (String × Schema) :=
    [("Status", Schema.ofType "string"), ("Code", Schema.ofType "string"),
     ("Message", Schema.ofType "string"), ("Data", Schema.ofType "object")]
  let errProps : List (String × Schema) :=
    [("Status", Schema.ofType "string"), ("Code", Schema.ofType "string"),
     ("Message", Schema.ofType "string")]
  let schemas := schemas.insert "response.ApiResponse" ((Schema.ofType "object").withProps scmProps)
  let schemas := schemas.insert "response.Response" ((Schema.ofType "object").withProps scmProps)
  let schemas := schemas.insert "response.OpenApiResponse" ((Schema.ofType "object").withProps scmProps)
  schemas.insert "response.OpenApiErrorNonSnap" ((Schema.ofType "object").withProps errProps)

/-- The mutable state of `extract_referenced_schemas`
(parser.rs lines 2748-2763). -/
structure ExtractState where
  schemas : SMap Schema := []
  schemaDependencies : SMap (List String) := []
  packageImports : SMap String := []
  modelsToProcess : List String := []
  processedModels : List String := []

/-- Collect the field lines of a struct body up to the closing-brace line
(the inner `while j < lines.len() && !lines[j].trim().starts_with('\x7d')`
loop, parser.rs lines 2841-2862), returning the captured fields and the lines
after the closing brace. -/
def takeFields : List SrcLine → (List (String × String) × List SrcLine)
  | [] => ([], [])
  | .closeBrace :: rest => ([], rest)
  | .fieldLine f ty :: rest =>
    let (fs, r) := takeFields rest
    ((f, ty) :: fs, r)
  | _ :: rest => takeFields rest

/-- Process one referenced struct declaration (parser.rs lines 2826-2886):
build its schema from the captured fields, store it under the bare name and
under every alias-qualified name known so far, and record its field
dependencies. -/
def processStruct (st : ExtractState) (structName : String)
    (fields : List (String × String)) : ExtractState :=
  let st := { st with processedModels := listInsert st.processedModels structName }
  let folded := fields.foldl
    (fun (acc : List (String × Schema) × List String × List String) fld =>
      let fieldSchema := convertGoTypeToSchema fld.2
      let deps := (collectFieldDependencies fld.2).foldl listInsert acc.2.2
      let req := if !(strStartsWith fld.2 "*") then acc.2.1 ++ [fld.1] else acc.2.1
      (SMap.insert acc.1 fld.1 fieldSchema, req, deps))
    ([], [], [])
  let properties := folded.1
  let requiredFields := folded.2.1
  let fieldDependencies := folded.2.2
  let schema0 := (Schema.ofType "object").withProps properties
  let schema := if !requiredFields.isEmpty then schema0.withRequired requiredFields else schema0
  let st := { st with schemas := st.schemas.insert structName schema }
  let st := { st with schemas := st.packageImports.foldl (fun (m : SMap Schema) (imp : String × String) => m.insert (imp.1 ++ "." ++ structName) schema) st.schemas }
  { st with schemaDependencies := st.schemaDependencies.insert structName fieldDependencies }

/-- The struct-scanning loop over one file's lines
(parser.rs lines 2812-2890).  The loop index strictly advances, so a fuel of
`lines.length + 1` reproduces the Rust `while` exactly. -/
def scanLines : Nat → ExtractState → List SrcLine → ExtractState
  | 0, st, _ => st
  | _ + 1, st, [] => st
  | fuel + 1, st, .structStart structName :: rest =>
    let isReferenced := st.modelsToProcess.contains structName ||
      st.modelsToProcess.any (fun m => strContainsChar m '.' && lastDotSeg m == structName)
    if isReferenced && !(st.processedModels.contains structName) then
      let (fields, rest') := takeFields rest
      scanLines fuel (processStruct st structName fields) rest'
    else scanLines fuel st rest
  | fuel + 1, st, _ :: rest => scanLines fuel st rest

/-- One full pass over all files (the body of the `while` loop,
parser.rs lines 2772-2892): accumulate each file's import captures into the
global alias map, then scan its lines. -/
def extractPass (files : List GoSrcFile) (st : ExtractState) : ExtractState :=
  files.foldl
    (fun st file =>
      let st := { st with packageImports := file.imports.foldl (fun (m : SMap String) (imp : Option String × String) => m.insert (importAlias imp.1 imp.2) imp.2) st.packageImports }
      scanLines (file.lines.length + 1) st file.lines)
    st

/-- The frontier recomputation after a pass (parser.rs lines 2894-2910):
every recorded dependency not yet processed and not containing `[]` forms the
next frontier; an empty recomputed frontier ends the loop. -/
def nextFrontier (st : ExtractState) : List String :=
  st.schemaDependencies.foldl
    (fun acc entry => entry.2.foldl
      (fun acc dep =>
        if !(st.processedModels.contains dep) && !(strContainsSub dep "[]") then listInsert acc dep
        else acc)
      acc)
    []

/-- The fixed-point loop (parser.rs lines 2769-2911).  The Rust loop can run
forever when a recorded dependency never matches any declaration; `fuel`
bounds the number of passes, and the model agrees with the source whenever
the source terminates within `fuel` passes. -/
def extractLoop (files : List GoSrcFile) : Nat → ExtractState → ExtractState
  | 0, st => st
  | fuel + 1, st =>
    if st.modelsToProcess.isEmpty then st
    else
      let st' := extractPass files st
      let frontier := nextFrontier st'
      let st'' := { st' with modelsToProcess := frontier }
      if frontier.isEmpty then st''
      else extractLoop files fuel st''

/-- `extract_referenced_schemas` (parser.rs lines 2746-2929): common schemas,
fixed-point resolution, then a basic-object placeholder for every referenced
model still missing. -/
def extractReferencedSchemas (fuel : Nat) (files : List GoSrcFile)
    (referencedModels : List String) : SMap Schema :=
  let st0 : ExtractState :=
    { schemas := addCommonSchemas [], modelsToProcess := referencedModels }
  let st := extractLoop files fuel st0
  referencedModels.foldl
    (fun schemas modelName =>
      if !(schemas.contains modelName) then schemas.insert modelName (Schema.ofType "object")
      else schemas)
    st.schemas

/-! ### Claim C2 -/

/-- First file of the C2 corpus: imports alias `pkgA` and declares
`type Address struct \x7b Street string \x7d`. -/
def c2File1 : GoSrcFile :=
  { imports := [(some "pkgA", "example.com/m/pkgA")],
    lines := [.structStart "Address", .fieldLine "Street" "string", .closeBrace] }

/-- Second file of the C2 corpus: imports alias `pkgB` and declares a
different `Address` struct. -/
def c2File2 : GoSrcFile :=
  { imports := [(some "pkgB", "example.com/m/pkgB")],
    lines := [.structStart "Address", .fieldLine "City" "string", .closeBrace] }

/-- The schema of the first `Address` declaration. -/
def c2Schema1 : Schema :=
  ((Schema.ofType "object").withProps [("Street", Schema.ofType "string")]).withRequired ["Street"]

/-- The schema of the second `Address` declaration. -/
def c2Schema2 : Schema :=
  ((Schema.ofType "object").withProps [("City", Schema.ofType "string")]).withRequired ["City"]

/-- C2 — counterexample to the claim as stated.  With two distinct `Address`
declarations in different files/packages, the registry's bare `Address` key
holds the declaration processed FIRST (not last), and the second declaration
is not reachable under its qualified key `pkgB.Address` (nor any other key):
the `processed_models` guard skips every later declaration with the same bare
name, and qualified keys clone the first declaration's schema. -/
theorem c2_counterexample :
    (extractReferencedSchemas 8 [c2File1, c2File2] ["Address"]).find? "Address" = some c2Schema1 ∧
    (extractReferencedSchemas 8 [c2File1, c2File2] ["Address"]).find? "pkgB.Address" = none ∧
    c2Schema1 ≠ c2Schema2 := by
  refine ⟨rfl, rfl, ?_⟩
  intro h
  have h2 := congrArg (fun s => s.properties.map Prod.fst) h
  simp only [c2Schema1, c2Schema2, Schema.ofType, Schema.withProps, Schema.withRequired,
    Schema.properties, List.map] at h2
  exact absurd h2 (by decide)

/-- C2 — amended claim.  When two distinct struct declarations share a bare
name across files, the schema resolver stores the declaration processed
first under the bare key; alias-qualified keys are created for every import
alias known at processing time and also hold the first declaration's schema
(`pkgA.Address`); the later declaration is skipped entirely, so qualified
keys of aliases seen only afterwards (`pkgB.Address`) do not exist and the
second declaration is reachable under no key. -/
theorem c2_collision_first_wins :
    (extractReferencedSchemas 8 [c2File1, c2File2] ["Address"]).find? "Address" = some c2Schema1 ∧
    (extractReferencedSchemas 8 [c2File1, c2File2] ["Address"]).find? "pkgA.Address" = some c2Schema1 ∧
    (extractReferencedSchemas 8 [c2File1, c2File2] ["Address"]).find? "pkgB.Address" = none ∧
    (∀ entry ∈ extractReferencedSchemas 8 [c2File1, c2File2] ["Address"], entry.2 ≠ c2Schema2) := by
  refine ⟨rfl, rfl, rfl, ?_⟩
  intro entry hmem h
  have hall : (extractReferencedSchemas 8 [c2File1, c2File2] ["Address"]).all
      (fun e => e.2.properties.map Prod.fst != ["City"]) = true := rfl
  have hb := List.all_eq_true.mp hall entry hmem
  rw [h] at hb
  exact absurd hb (by decide)

/-! ### `parse_general_api_info` (parser.rs lines 169-498) -/

/-- `models.rs` `Contact`. -/
structure Contact where
  name : Option String := none
  url : Option String := none
  email : Option String := none

/-- `models.rs` `License`. -/
structure License where
  name : String := ""
  url : Option String := none
  identifier : Option String := none

/-- `models.rs` `ExternalDocs`. -/
structure ExternalDocs where
  description : Option String := none
  url : String := ""

/-- `models.rs` `Info`. -/
structure Info where
  title : String := ""
  version : String := ""
  description : Option String := none
  termsOfService : Option String := none
  summary : Option String := none
  contact : Option Contact := none
  license : Option License := none

/-- `models.rs` `Server` (the `variables` map is never populated by the
parser and is omitted). -/
structure Server where
  url : String := ""
  description : Option String := none

/-- `models.rs` `Tag`. -/
structure Tag where
  name : String := ""
  description : Option String := none
  externalDocs : Option ExternalDocs := none

/-- `models.rs` `OAuthFlow`. -/
structure OAuthFlow where
  authorizationUrl : Option String := none
  tokenUrl : Option String := none
  refreshUrl : Option String := none
  scopes : SMap String := []

/-- `models.rs` `OAuthFlows`. -/
structure OAuthFlows where
  implicit : Option OAuthFlow := none
  password : Option OAuthFlow := none
  clientCredentials : Option OAuthFlow := none
  authorizationCode : Option OAuthFlow := none

/-- `models.rs` `SecurityScheme`. -/
structure SecurityScheme where
  type_ : String := ""
  description : Option String := none
  name : Option String := none
  in_type : Option String := none
  scheme : Option String := none
  bearerFormat : Option String := none
  flows : Option OAuthFlows := none
  openIdConnectUrl : Option String := none

/-- `models.rs` `ParsedApiInfo`. -/
structure ParsedApiInfo where
  info : Info := {}
  servers : List Server := []
  security : List (SMap (List String)) := []
  securityDefinitions : SMap SecurityScheme := []
  tags : List Tag := []
  externalDocs : Option ExternalDocs := none
  host : Option String := none
  basePath : Option String := none
  schemes : List String := []
  consumes : List String := []
  produces : List String := []

/-- The `MULTI_LINE_DESCRIPTION_REGEX` capture `//\s*(.+)$`
(parser.rs lines 26-28), already trimmed as at its only use site
(line 433): the trimmed text after the first `//` that is followed by at
least one character. -/
def multiCapture (line : String) : Option String := go line.data
where
  go : List Char → Option String
    | [] => none
    | '/' :: '/' :: rest => if rest.isEmpty then none else some (myTrim (String.mk rest))
    | _ :: rest => go rest

/-- The mutable locals of `parse_general_api_info`
(parser.rs lines 177-183). -/
structure GState where
  apiInfo : ParsedApiInfo := {}
  contact : Contact := {}
  license : License := {}
  inDocComment : Bool := false
  descriptionBuffer : String := ""
  currentServer : Option Server := none
  currentTagName : Option String := none

/-- Processing of one classified annotation by `parse_general_api_info`
(the `match annotation.annotation_type` of parser.rs lines 200-430).
`secDef` is the `parse_security_definition` collaborator
(parser.rs lines 500-875), which reads and writes only
`api_info.security_definitions` and is therefore passed as a function on that
map. -/
def gAnnotStep (secDef : SMap SecurityScheme → String → String → Except ParserError (SMap SecurityScheme))
    (st : GState) (r : String × Option String × String) : Except ParserError GState :=
  let attrOpt := r.2.1
  let value := r.2.2
  match AnnotationType.ofString r.1 with
  | .title => .ok { st with apiInfo := { st.apiInfo with info := { st.apiInfo.info with title := value } } }
  | .version => .ok { st with apiInfo := { st.apiInfo with info := { st.apiInfo.info with version := value } } }
  | .description =>
    if !st.inDocComment then
      .ok { st with apiInfo := { st.apiInfo with info := { st.apiInfo.info with description := some value } } }
    else .ok { st with descriptionBuffer := st.descriptionBuffer ++ value ++ "\n" }
  | .summary => .ok { st with apiInfo := { st.apiInfo with info := { st.apiInfo.info with summary := some value } } }
  | .termsOfService => .ok { st with apiInfo := { st.apiInfo with info := { st.apiInfo.info with termsOfService := some value } } }
  | .contact =>
    (match attrOpt with
     | some a =>
       if a = "name" then .ok { st with contact := { st.contact with name := some value } }
       else if a = "url" then .ok { st with contact := { st.contact with url := some value } }
       else if a = "email" then .ok { st with contact := { st.contact with email := some value } }
       else .ok st
     | none => .ok st)
  | .license =>
    (match attrOpt with
     | some a =>
       if a = "name" then .ok { st with license := { st.license with name := value } }
       else if a = "url" then .ok { st with license := { st.license with url := some value } }
       else if a = "identifier" then .ok { st with license := { st.license with identifier := some value } }
       else .ok st
     | none => .ok st)
  | .server =>
    (match attrOpt with
     | some a =>
       if a = "url" then
         (match st.currentServer with
          | none => .ok { st with currentServer := some { url := value } }
          | some srv => .ok { st with currentServer := some { srv with url := value } })
       else if a = "description" then
         (match st.currentServer with
          | some srv =>
            .ok { st with apiInfo := { st.apiInfo with servers := st.apiInfo.servers ++ [{ srv with description := some value }] }, currentServer := none }
          | none => .ok { st with currentServer := some { url := "", description := some value } })
       else .ok st
     | none => .error (.serverParseError "Server annotation requires an attribute"))
  | .host => .ok { st with apiInfo := { st.apiInfo with host := some value } }
  | .basePath => .ok { st with apiInfo := { st.apiInfo with basePath := some value } }
  | .accept => .ok { st with apiInfo := { st.apiInfo with consumes := st.apiInfo.consumes ++ [normalizeMimeType value] } }
  | .produce => .ok { st with apiInfo := { st.apiInfo with produces := st.apiInfo.produces ++ [normalizeMimeType value] } }
  | .schemes => .ok { st with apiInfo := { st.apiInfo with schemes := st.apiInfo.schemes ++ splitWs value } }
  | .tag =>
    (match attrOpt with
     | some a =>
       if a = "name" then
         let found := st.apiInfo.tags.any (fun t => t.name == value)
         let tags' := if found then st.apiInfo.tags else st.apiInfo.tags ++ [{ name := value }]
         .ok { st with apiInfo := { st.apiInfo with tags := tags' }, currentTagName := some value }
       else if a = "description" then
         (match st.currentTagName with
          | some tagName =>
            .ok { st with apiInfo := { st.apiInfo with tags := updateFirstTag st.apiInfo.tags tagName value } }
          | none => .ok st)
       else .ok st
     | none => .ok { st with apiInfo := { st.apiInfo with tags := st.apiInfo.tags ++ [{ name := value }] } })
  | .securityDefinitions =>
    (match attrOpt with
     | some a =>
       (match secDef st.apiInfo.securityDefinitions a value with
        | .ok defs => .ok { st with apiInfo := { st.apiInfo with securityDefinitions := defs } }
        | .error e => .error e)
     | none => .error (.securityParseError "SecurityDefinitions annotation requires an attribute"))
  | .securityScheme =>
    (match attrOpt with
     | some a =>
       let parts := charSplitOn '.' a
       if parts.length ≥ 2 then
         let schemeName := parts.getD 0 ""
         let property := parts.getD 1 ""
         if st.apiInfo.securityDefinitions.contains schemeName then
           let defs' := SMap.updateAt st.apiInfo.securityDefinitions schemeName (fun sch =>
             if property = "description" then { sch with description := some value }
             else if property = "in" then { sch with in_type := some value }
             else if property = "name" then { sch with name := some value }
             else sch)
           .ok { st with apiInfo := { st.apiInfo with securityDefinitions := defs' } }
         else .ok st
       else .ok st
     | none => .ok st)
  | .security =>
    let (first, restOpt) := splitFirst value " "
    let req : SMap (List String) :=
      match restOpt with
      | some rest => [(first, splitWs rest)]
      | none => [(first, [])]
    .ok { st with apiInfo := { st.apiInfo with security := st.apiInfo.security ++ [req] } }
  | .externalDocs =>
    (match attrOpt with
     | some a =>
       if a = "description" then
         (match st.apiInfo.externalDocs with
          | some docs => .ok { st with apiInfo := { st.apiInfo with externalDocs := some { docs with description := some value } } }
          | none => .ok { st with apiInfo := { st.apiInfo with externalDocs := some { description := some value, url := "" } } })
       else if a = "url" then
         (match st.apiInfo.externalDocs with
          | some docs => .ok { st with apiInfo := { st.apiInfo with externalDocs := some { docs with url := value } } }
          | none => .ok { st with apiInfo := { st.apiInfo with externalDocs := some { description := none, url := value } } })
       else .ok st
     | none => .ok st)
  | _ => .ok st
where
  /-- Update the description of the first tag with the given name
  (parser.rs lines 324-330). -/
  updateFirstTag : List Tag → String → String → List Tag
    | [], _, _ => []
    | t :: ts, tagName, value =>
      if t.name = tagName then { t with description := some value } :: ts
      else t :: updateFirstTag ts tagName value

/-- The non-annotation branches of the line loop
(parser.rs lines 431-444). -/
def gNonAnnotStep (st : GState) (line : String) : GState :=
  match multiCapture line with
  | some text =>
    if st.inDocComment then { st with descriptionBuffer := st.descriptionBuffer ++ text ++ "\n" }
    else st
  | none =>
    if st.inDocComment && st.descriptionBuffer ≠ "" then
      { st with apiInfo := { st.apiInfo with info := { st.apiInfo.info with description := some (myTrim st.descriptionBuffer) } },
                descriptionBuffer := "", inDocComment := false }
    else st

/-- The block-comment toggles run on every line
(parser.rs lines 446-459). -/
def gBlockToggle (st : GState) (line : String) : GState :=
  let st :=
    if strStartsWith (myTrimStart line) "/*" then { st with inDocComment := true, descriptionBuffer := "" }
    else st
  if strEndsWith (myTrimEnd line) "*/" then
    if st.descriptionBuffer ≠ "" then
      { st with inDocComment := false,
                apiInfo := { st.apiInfo with info := { st.apiInfo.info with description := some (myTrim st.descriptionBuffer) } },
                descriptionBuffer := "" }
    else { st with inDocComment := false }
  else st

/-- One line of `parse_general_api_info`'s loop. -/
def gStep (secDef : SMap SecurityScheme → String → String → Except ParserError (SMap SecurityScheme))
    (st : GState) (line : String) : Except ParserError GState :=
  match annotationCaptures line with
  | some r =>
    (match gAnnotStep secDef st r with
     | .error e => .error e
     | .ok st1 => .ok (gBlockToggle st1 line))
  | none => .ok (gBlockToggle (gNonAnnotStep st line) line)

/-- The line loop. -/
def gFold (secDef : SMap SecurityScheme → String → String → Except ParserError (SMap SecurityScheme)) :
    GState → List String → Except ParserError GState
  | st, [] => .ok st
  | st, line :: rest =>
    match gStep secDef st line with
    | .error e => .error e
    | .ok st' => gFold secDef st' rest

/-- The epilogue of `parse_general_api_info` (parser.rs lines 462-497):
attach contact and license when populated, flush a pending server with a
non-empty url, and expand legacy host/basePath/schemes into servers when no
explicit servers were defined. -/
def gFinalize (st : GState) : ParsedApiInfo :=
  let apiInfo := st.apiInfo
  let apiInfo :=
    if st.contact.name.isSome || st.contact.url.isSome || st.contact.email.isSome then
      { apiInfo with info := { apiInfo.info with contact := some st.contact } }
    else apiInfo
  let apiInfo :=
    if st.license.name ≠ "" then { apiInfo with info := { apiInfo.info with license := some st.license } }
    else apiInfo
  let apiInfo :=
    match st.currentServer with
    | some server => if server.url ≠ "" then { apiInfo with servers := apiInfo.servers ++ [server] } else apiInfo
    | none => apiInfo
  if apiInfo.servers.isEmpty && apiInfo.host.isSome then
    { apiInfo with servers := apiInfo.schemes.map (fun scheme =>
        { url := scheme ++ "://" ++ (apiInfo.host.getD "") ++ (apiInfo.basePath.getD ""), description := none }) }
  else apiInfo

/-- `parse_general_api_info` (parser.rs lines 169-498), over the lines of the
entry file (the file read itself is outside the embedding). -/
def parseGeneralApiInfo
    (secDef : SMap SecurityScheme → String → String → Except ParserError (SMap SecurityScheme))
    (lines : List String) : Except ParserError ParsedApiInfo :=
  match gFold secDef {} lines with
  | .error e => .error e
  | .ok st => .ok (gFinalize st)


/-- No annotation arm other than the server arm (parser.rs lines 320-343)
touches `servers` or `current_server`. -/
theorem gAnnotStep_servers
    (secDef : SMap SecurityScheme → String → String → Except ParserError (SMap SecurityScheme))
    (st st' : GState) (r : String × Option String × String)
    (hns : AnnotationType.ofString r.1 ≠ .server)
    (h : gAnnotStep secDef st r = .ok st') :
    st'.apiInfo.servers = st.apiInfo.servers ∧ st'.currentServer = st.currentServer := by
  unfold gAnnotStep at h
  cases hat : AnnotationType.ofString r.1 <;> rw [hat] at h
  case server => exact absurd hat hns
  all_goals dsimp only at h
  all_goals (repeat' split at h) <;> injection h <;> subst st' <;> constructor <;> rfl

/-- Non-annotation lines never touch `servers` or `current_server`. -/
theorem gNonAnnotStep_servers (st : GState) (line : String) :
    (gNonAnnotStep st line).apiInfo.servers = st.apiInfo.servers ∧
    (gNonAnnotStep st line).currentServer = st.currentServer := by
  unfold gNonAnnotStep
  repeat' split
  all_goals constructor <;> simp

/-- The block-comment toggles never touch `servers` or `current_server`. -/
theorem gBlockToggle_servers (st : GState) (line : String) :
    (gBlockToggle st line).apiInfo.servers = st.apiInfo.servers ∧
    (gBlockToggle st line).currentServer = st.currentServer := by
  unfold gBlockToggle
  dsimp only
  repeat' split
  all_goals constructor <;> simp

/-- A loop step on a line without a server annotation preserves `servers`
and `current_server`. -/
theorem gStep_servers
    (secDef : SMap SecurityScheme → String → String → Except ParserError (SMap SecurityScheme))
    (st st' : GState) (line : String)
    (hns : ∀ r, annotationCaptures line = some r → AnnotationType.ofString r.1 ≠ .server)
    (h : gStep secDef st line = .ok st') :
    st'.apiInfo.servers = st.apiInfo.servers ∧ st'.currentServer = st.currentServer := by
  unfold gStep at h
  cases hc : annotationCaptures line <;> rw [hc] at h
  · injection h with h2
    subst h2
    have h1 := gNonAnnotStep_servers st line
    have h2 := gBlockToggle_servers (gNonAnnotStep st line) line
    exact ⟨h2.1.trans h1.1, h2.2.trans h1.2⟩
  · case some r =>
    dsimp only at h
    cases ha : gAnnotStep secDef st r <;> rw [ha] at h
    · exact absurd h (by simp)
    · case ok st1 =>
      injection h with h2
      subst h2
      have h1 := gAnnotStep_servers secDef st st1 r (hns r hc) ha
      have h2 := gBlockToggle_servers st1 line
      exact ⟨h2.1.trans h1.1, h2.2.trans h1.2⟩

/-- The whole loop preserves `servers` and `current_server` when no line
carries a server annotation. -/
theorem gFold_servers
    (secDef : SMap SecurityScheme → String → String → Except ParserError (SMap SecurityScheme))
    (lines : List String) (st st' : GState)
    (hns : ∀ line ∈ lines, ∀ r, annotationCaptures line = some r → AnnotationType.ofString r.1 ≠ .server)
    (h : gFold secDef st lines = .ok st') :
    st'.apiInfo.servers = st.apiInfo.servers ∧ st'.currentServer = st.currentServer := by
  induction lines generalizing st with
  | nil =>
    unfold gFold at h
    injection h with h2
    subst h2
    exact ⟨rfl, rfl⟩
  | cons line rest ih =>
    unfold gFold at h
    cases hs : gStep secDef st line <;> rw [hs] at h
    · exact absurd h (by simp)
    · case ok st1 =>
      have h1 := gStep_servers secDef st st1 line (hns line (by simp)) hs
      have h2 := ih st1 (fun l hl => hns l (by simp [hl])) h
      exact ⟨h2.1.trans h1.1, h2.2.trans h1.2⟩

/-- When the loop ends with no servers and no pending server, the epilogue
produces exactly the legacy expansion: one server per scheme with url
scheme://host/basePath when a host exists, none otherwise
(parser.rs lines 479-495). -/
theorem gFinalize_servers (st : GState)
    (hs : st.apiInfo.servers = []) (hc : st.currentServer = none) :
    (gFinalize st).servers =
      (match (gFinalize st).host with
       | some h => (gFinalize st).schemes.map (fun scheme =>
           { url := scheme ++ "://" ++ h ++ ((gFinalize st).basePath.getD ""), description := none })
       | none => []) := by
  unfold gFinalize
  dsimp only
  rw [hc]
  repeat' split
  all_goals simp_all

/-- A line holds no server annotation: either it is not an annotation line
at all, or its tag does not classify as Server. -/
def noServerAnnot (line : String) : Bool :=
  match annotationCaptures line with
  | some r => decide (AnnotationType.ofString r.1 ≠ .server)
  | none => true

/-- Unfolding of `noServerAnnot` into the propositional form used by the
loop invariant. -/
theorem noServerAnnot_spec (line : String) (h : noServerAnnot line = true) :
    ∀ r, annotationCaptures line = some r → AnnotationType.ofString r.1 ≠ .server := by
  intro r hr
  unfold noServerAnnot at h
  rw [hr] at h
  exact of_decide_eq_true h

/-- The scenario input lines of spec section 8. -/
def c8Lines : List String :=
  ["// @title Demo API", "// @version 1.0", "// @host example.com",
   "// @BasePath /v1", "// @schemes https"]

/-- The expected scenario output: Info title Demo API and version 1.0, and
exactly one synthesized server with url https://example.com/v1. -/
def c8Info : ParsedApiInfo :=
  { info := { title := "Demo API", version := "1.0" },
    servers := [{ url := "https://example.com/v1", description := none }],
    host := some "example.com", basePath := some "/v1", schemes := ["https"] }

/-- C8: if the entry file declares no explicit server annotations, the
legacy host, basePath and schemes annotations are expanded as a final step
into one Server per declared scheme with url scheme://host/basePath; and
the concrete scenario with title Demo API, version 1.0, host example.com,
BasePath /v1 and schemes https yields Info with that title and version and
exactly one Server with url https://example.com/v1. -/
theorem c8_legacy_server_expansion :
    (∀ (secDef : SMap SecurityScheme → String → String → Except ParserError (SMap SecurityScheme))
       (lines : List String) (info : ParsedApiInfo) (hostName : String),
      lines.all noServerAnnot = true →
      parseGeneralApiInfo secDef lines = .ok info →
      info.host = some hostName →
      info.servers = info.schemes.map (fun scheme =>
        ({ url := scheme ++ "://" ++ hostName ++ info.basePath.getD "", description := none } : Server)))
    ∧ parseGeneralApiInfo (fun m _ _ => .ok m) c8Lines = .ok c8Info := by
  constructor
  · intro secDef lines info hostName hall hok hhost
    unfold parseGeneralApiInfo at hok
    cases hf : gFold secDef {} lines <;> rw [hf] at hok
    · exact absurd hok (by simp)
    · case ok st =>
      injection hok with h2
      subst h2
      have hinv := gFold_servers secDef lines {} st
        (fun l hl => noServerAnnot_spec l (by
          have := List.all_eq_true.mp hall l hl
          exact this)) hf
      have hfin := gFinalize_servers st hinv.1 hinv.2
      rw [hhost] at hfin
      exact hfin
  · rfl

/-- Witness for C8 at the scenario input: the hypotheses hold and the
expansion equation evaluates. -/
theorem c8_witness :
    c8Lines.all noServerAnnot = true ∧
    c8Info.servers = c8Info.schemes.map (fun scheme =>
      ({ url := scheme ++ "://" ++ "example.com" ++ c8Info.basePath.getD "", description := none } : Server)) :=
  ⟨by decide, c8_legacy_server_expansion.1 (fun m _ _ => .ok m) c8Lines c8Info "example.com"
      (by decide) c8_legacy_server_expansion.2 rfl⟩


end Swaggo
